import Mathlib

/-!
# Verification of the TAMPA canonicalization / consensus / validation core

Shallow embedding of the TAMPA repository's core modules:

* `src/datanet/canonicalize_v1.py` — canonical JSON serialization and content
  hashing (`canonicalize_value`, `canonicalize_json`, `compute_canonical_hash`);
* `src/datanet/compare_tampa.py`   — consensus comparison of execution outputs
  (`ComparisonResult._compare`);
* `src/datanet/validate_tampa.py`  — strict validator (`validate_tampa_output`)
  over the Pydantic schema of `src/datanet/schema_tampa.py`.

Modelling conventions:
* Python JSON-like values are the tagged union `PyValue`; Python `dict`s are
  association lists `List (String × PyValue)` whose key lists are `Nodup` (a
  Python dict cannot hold duplicate keys); `dict.get` is association-list lookup.
* Python strings are Lean `String`s / `List Char` (both are codepoint
  sequences, matching Python's codepoint indexing and slicing).
* Python `float`s are modelled by the exact numbers they denote: `FloatV` is a
  finite rational or one of the non-finite values NaN / +inf / -inf.
  Python `int`s are `Int`.
* Machine words inside SHA-256 are `Nat`s reduced `% 2^32`.
* Python exceptions are `Except` errors carrying the message text.
-/

/-- Values of a Python `float`: a finite rational, or NaN / ±infinity. -/
inductive FloatV : Type where
  | finite : ℚ → FloatV
  | nan : FloatV
  | inf : FloatV
  | ninf : FloatV
deriving DecidableEq

/-- Python JSON-like values: the dynamic types accepted by
`canonicalize_value` plus a constructor `other` covering every remaining
Python object (sets, bytes, class instances, ...).  `other` carries the
rendering of the offending Python type used in the `ValueError` message. -/
inductive PyValue : Type where
  | null : PyValue
  | bool : Bool → PyValue
  | int : Int → PyValue
  | float : FloatV → PyValue
  | str : String → PyValue
  | list : List PyValue → PyValue
  | dict : List (String × PyValue) → PyValue
  | other : String → PyValue

/-! ## Sorting dict entries by key

`canonicalize_value` runs `sorted(value.items())` and `json.dumps(...,
sort_keys=True)` sorts key/value pairs again.  Python's `sorted` compares the
`(key, value)` tuples; since a Python dict never holds two equal keys, the
comparison is decided by the keys alone.  We model it as insertion sort on the
key using Lean's lexicographic codepoint order on `String`, which agrees with
Python's `str` comparison (both compare codepoint sequences lexicographically).
-/

/-- Insert one entry into a key-sorted list of entries. -/
def insortKey (x : String × PyValue) : List (String × PyValue) → List (String × PyValue)
  | [] => [x]
  | y :: ys => if x.1 < y.1 then x :: y :: ys else y :: insortKey x ys

/-- Sort dict entries ascending by key (model of Python `sorted(d.items())`
for dicts, whose keys are distinct). -/
def sortByKey : List (String × PyValue) → List (String × PyValue)
  | [] => []
  | x :: xs => insortKey x (sortByKey xs)

/-! ## SHA-256 over `Nat` (FIPS 180-4)

Model of Python's `hashlib.sha256(...).hexdigest()` as used by
`sha256_hex` in `validate_tampa.py` and `compute_canonical_hash` in
`canonicalize_v1.py`.  Words are `Nat`s kept below `2^32`. -/

/-- The word modulus `2^32`. -/
def M32 : Nat := 4294967296

/-- Reduce to a 32-bit word. -/
def w32 (n : Nat) : Nat := n % M32

/-- Right-rotation of a 32-bit word by `r` places. -/
def rotr32 (r x : Nat) : Nat := ((x >>> r) ||| (x <<< (32 - r))) % M32

/-- Bitwise complement of a 32-bit word. -/
def not32 (x : Nat) : Nat := x ^^^ (M32 - 1)

/-- SHA-256 `Ch`. -/
def ch32 (x y z : Nat) : Nat := (x &&& y) ^^^ (not32 x &&& z)

/-- SHA-256 `Maj`. -/
def maj32 (x y z : Nat) : Nat := (x &&& y) ^^^ (x &&& z) ^^^ (y &&& z)

/-- SHA-256 `Σ₀`. -/
def bsig0 (x : Nat) : Nat := rotr32 2 x ^^^ rotr32 13 x ^^^ rotr32 22 x

/-- SHA-256 `Σ₁`. -/
def bsig1 (x : Nat) : Nat := rotr32 6 x ^^^ rotr32 11 x ^^^ rotr32 25 x

/-- SHA-256 `σ₀`. -/
def ssig0 (x : Nat) : Nat := rotr32 7 x ^^^ rotr32 18 x ^^^ (x >>> 3)

/-- SHA-256 `σ₁`. -/
def ssig1 (x : Nat) : Nat := rotr32 17 x ^^^ rotr32 19 x ^^^ (x >>> 10)

/-- The 64 SHA-256 round constants (FIPS 180-4 §4.2.2). -/
def sha256K : List Nat :=
  [1116352408, 1899447441, 3049323471, 3921009573, 961987163,
   1508970993, 2453635748, 2870763221, 3624381080, 310598401,
   607225278, 1426881987, 1925078388, 2162078206, 2614888103,
   3248222580, 3835390401, 4022224774, 264347078, 604807628,
   770255983, 1249150122, 1555081692, 1996064986, 2554220882,
   2821834349, 2952996808, 3210313671, 3336571891, 3584528711,
   113926993, 338241895, 666307205, 773529912, 1294757372,
   1396182291, 1695183700, 1986661051, 2177026350, 2456956037,
   2730485921, 2820302411, 3259730800, 3345764771, 3516065817,
   3600352804, 4094571909, 275423344, 430227734, 506948616,
   659060556, 883997877, 958139571, 1322822218, 1537002063,
   1747873779, 1955562222, 2024104815, 2227730452, 2361852424,
   2428436474, 2756734187, 3204031479, 3329325298]

/-- The eight initial hash values (FIPS 180-4 §5.3.3). -/
def sha256IV : List Nat :=
  [1779033703, 3144134277, 1013904242, 2773480762, 1359893119,
   2600822924, 528734635, 1541459225]

/-- UTF-8 encoding of one codepoint, as a list of byte values. -/
def utf8Bytes (c : Char) : List Nat :=
  let n := c.toNat
  if n < 0x80 then [n]
  else if n < 0x800 then
    [0xc0 ||| (n >>> 6), 0x80 ||| (n &&& 0x3f)]
  else if n < 0x10000 then
    [0xe0 ||| (n >>> 12), 0x80 ||| ((n >>> 6) &&& 0x3f), 0x80 ||| (n &&& 0x3f)]
  else
    [0xf0 ||| (n >>> 18), 0x80 ||| ((n >>> 12) &&& 0x3f),
     0x80 ||| ((n >>> 6) &&& 0x3f), 0x80 ||| (n &&& 0x3f)]

/-- UTF-8 encoding of a string, as a list of byte values
(model of Python `text.encode('utf-8')`). -/
def strUtf8 (s : String) : List Nat := (s.data.map utf8Bytes).flatten

/-- SHA-256 padding: `0x80`, zeros to 56 mod 64, then the 64-bit big-endian
bit length. -/
def sha256Pad (msg : List Nat) : List Nat :=
  let len := msg.length
  let zeros := (55 + 64 - len % 64) % 64
  let bitLen := len * 8
  msg ++ 0x80 :: List.replicate zeros 0 ++
    (List.range 8).map (fun i => (bitLen >>> ((7 - i) * 8)) &&& 0xff)

/-- Split a padded message (whose length is a multiple of 64) into its
64-byte blocks. -/
def sha256Blocks (bs : List Nat) : List (List Nat) :=
  (List.range (bs.length / 64)).map (fun i => (bs.drop (64 * i)).take 64)

/-- The first 16 message-schedule words of a block (big-endian 4-byte words). -/
def blockWords : List Nat → List Nat
  | b0 :: b1 :: b2 :: b3 :: rest =>
      ((b0 <<< 24) ||| (b1 <<< 16) ||| (b2 <<< 8) ||| b3) :: blockWords rest
  | _ => []

/-- Extend 16 schedule words to 64 (FIPS 180-4 §6.2.2 step 1). -/
def sha256Schedule (ws : Array Nat) : Array Nat :=
  (List.range 48).foldl
    (fun a j =>
      let t := j + 16
      a.push (w32 (ssig1 (a.getD (t - 2) 0) + a.getD (t - 7) 0 +
                   ssig0 (a.getD (t - 15) 0) + a.getD (t - 16) 0)))
    ws

/-- Working state of the compression loop. -/
structure Sha256State where
  a : Nat
  b : Nat
  c : Nat
  d : Nat
  e : Nat
  f : Nat
  g : Nat
  h : Nat

/-- One round of the compression loop (FIPS 180-4 §6.2.2 step 3). -/
def sha256Round (st : Sha256State) (kw : Nat × Nat) : Sha256State :=
  let t1 := st.h + bsig1 st.e + ch32 st.e st.f st.g + kw.1 + kw.2
  let t2 := bsig0 st.a + maj32 st.a st.b st.c
  ⟨w32 (t1 + t2), st.a, st.b, st.c, w32 (st.d + t1), st.e, st.f, st.g⟩

/-- Compress one 64-byte block into the running 8-word state. -/
def sha256Compress (hs : List Nat) (block : List Nat) : List Nat :=
  let ws := sha256Schedule (blockWords block).toArray
  let init : Sha256State :=
    ⟨hs.getD 0 0, hs.getD 1 0, hs.getD 2 0, hs.getD 3 0,
     hs.getD 4 0, hs.getD 5 0, hs.getD 6 0, hs.getD 7 0⟩
  let st := (sha256K.zip ws.toList).foldl sha256Round init
  [w32 (hs.getD 0 0 + st.a), w32 (hs.getD 1 0 + st.b),
   w32 (hs.getD 2 0 + st.c), w32 (hs.getD 3 0 + st.d),
   w32 (hs.getD 4 0 + st.e), w32 (hs.getD 5 0 + st.f),
   w32 (hs.getD 6 0 + st.g), w32 (hs.getD 7 0 + st.h)]

/-- The lowercase hex digit for a nibble. -/
def hexChar (n : Nat) : Char := "0123456789abcdef".data.getD n (Char.ofNat 48)

/-- Lowercase 8-hex-digit rendering of a 32-bit word. -/
def toHex8 (n : Nat) : String :=
  String.mk ((List.range 8).map (fun i => hexChar ((n >>> ((7 - i) * 4)) &&& 15)))

/-- SHA-256 hex digest of a byte sequence. -/
def sha256HexBytes (msg : List Nat) : String :=
  let final := ((sha256Blocks (sha256Pad msg)).foldl sha256Compress sha256IV)
  String.join (final.map toHex8)

/-- Model of `sha256_hex` (`validate_tampa.py` lines 13-15): SHA-256 hex digest
of the UTF-8 encoding of a text. -/
def sha256_hex (text : String) : String := sha256HexBytes (strUtf8 text)

-- Sanity anchors for the SHA-256 model: the published FIPS/NIST digests of
-- the empty string and of "abc".
example :
    sha256_hex "" =
      "e3b0c44298fc1c149afbf4c8996fb92427ae41e4649b934ca495991b7852b855" := by
  decide

example :
    sha256_hex "abc" =
      "ba7816bf8f01cfea414140de5dae2223b00361a396177a9cb410ff61f20015ad" := by
  decide

/-! ## Model of `json.dumps(..., ensure_ascii=False, separators=(',',':'), sort_keys=True)`

CPython renders `None/True/False` as `null/true/false`, ints in decimal,
floats via `repr` (shortest decimal; `NaN`/`Infinity`/`-Infinity` for the
non-finite values, since `allow_nan` defaults to `True`), strings quoted with
the minimal JSON escapes (non-ASCII emitted literally under
`ensure_ascii=False`), and dict entries sorted by key. -/

/-- Number of times `p` divides `n` (`p ≥ 2`).  The first argument is fuel;
`n` itself is always enough fuel. -/
def countFactorAux : Nat → Nat → Nat → Nat
  | 0, _, _ => 0
  | fuel + 1, p, n => if 2 ≤ p ∧ n % p = 0 ∧ n ≠ 0 then countFactorAux fuel p (n / p) + 1 else 0

/-- Multiplicity of the prime `p` in `n`. -/
def countFactor (p n : Nat) : Nat := countFactorAux n p n

/-- Model of CPython `repr` on a finite float, over the exact-rational
abstraction of floats: the shortest decimal form with at least one digit after
the point.  Exact for every rational with denominator `2^a * 5^b`, which
covers every value a Python float can take. -/
def pyFloatRepr (q : ℚ) : String :=
  let k := max (max (countFactor 2 q.den) (countFactor 5 q.den)) 1
  let scaled : ℤ := (q * (10 : ℚ) ^ k).num
  let sign := if q < 0 then "-" else ""
  let digits := toString scaled.natAbs
  let padded :=
    if digits.length ≤ k then
      String.mk (List.replicate (k + 1 - digits.length) (Char.ofNat 48)) ++ digits
    else digits
  let ds := padded.data
  sign ++ String.mk (ds.take (ds.length - k)) ++ "." ++ String.mk (ds.drop (ds.length - k))

/-- Rendering of a Python float by `json.dumps` (`allow_nan=True`). -/
def floatRepr : FloatV → String
  | .finite q => pyFloatRepr q
  | .nan => "NaN"
  | .inf => "Infinity"
  | .ninf => "-Infinity"

/-- The backslash character. -/
def bslash : Char := Char.ofNat 92

/-- The double-quote character. -/
def dquote : Char := Char.ofNat 34

/-- JSON escaping of one character (CPython `ESCAPE_DCT`):
backslash, quote, the short control escapes, `\u00XX` for the remaining
control characters, everything else literal. -/
def escapeChar (c : Char) : List Char :=
  if c = bslash then [bslash, bslash]
  else if c = dquote then [bslash, dquote]
  else if c.toNat = 10 then [bslash, Char.ofNat 110]
  else if c.toNat = 9 then [bslash, Char.ofNat 116]
  else if c.toNat = 13 then [bslash, Char.ofNat 114]
  else if c.toNat = 8 then [bslash, Char.ofNat 98]
  else if c.toNat = 12 then [bslash, Char.ofNat 102]
  else if c.toNat < 32 then
    [bslash, Char.ofNat 117, Char.ofNat 48, Char.ofNat 48,
     hexChar (c.toNat >>> 4), hexChar (c.toNat &&& 15)]
  else [c]

/-- JSON string literal for `s` (`ensure_ascii=False`). -/
def jsonQuote (s : String) : String :=
  String.mk (dquote :: (s.data.map escapeChar).flatten ++ [dquote])

/-- Comma-join, the item separator of `separators=(',', ':')`. -/
def joinComma (ss : List String) : String := String.intercalate "," ss

/-! Size bookkeeping for the recursion through sorted entry lists. -/

/-- Inserting an entry adds its size (insertion sort preserves total size). -/
theorem sizeOf_insortKey (x : String × PyValue) (l : List (String × PyValue)) :
    sizeOf (insortKey x l) = 1 + sizeOf x + sizeOf l := by
  induction l with
  | nil => simp [insortKey]
  | cons y ys ih =>
      simp only [insortKey]
      split
      · simp [List.cons.sizeOf_spec]
      · simp [List.cons.sizeOf_spec, ih]; omega

/-- Sorting dict entries by key preserves their total size. -/
theorem sizeOf_sortByKey (l : List (String × PyValue)) :
    sizeOf (sortByKey l) = sizeOf l := by
  induction l with
  | nil => rfl
  | cons x xs ih => simp [sortByKey, sizeOf_insortKey, ih]

mutual

/-- Model of `canonicalize_value` (`canonicalize_v1.py` lines 13-42): `None`,
booleans, numbers and strings pass through; dict entries are sorted by key and
their values canonicalized (in sorted order, matching the generator consumed
by `OrderedDict`); lists and tuples are canonicalized elementwise; any other
type raises `ValueError`. -/
def canonicalize_value : PyValue → Except String PyValue
  | .null => .ok .null
  | .bool b => .ok (.bool b)
  | .int n => .ok (.int n)
  | .float f => .ok (.float f)
  | .str s => .ok (.str s)
  | .dict l => (canonEntries (sortByKey l)).map PyValue.dict
  | .list xs => (canonItems xs).map PyValue.list
  | .other t => .error ("Unsupported type for canonicalization: " ++ t)
termination_by v => sizeOf v
decreasing_by
  all_goals simp_wf
  all_goals try rw [sizeOf_sortByKey]
  all_goals try simp
  all_goals omega

/-- Canonicalize the values of a (sorted) entry list, left to right,
propagating the first `ValueError`. -/
def canonEntries : List (String × PyValue) → Except String (List (String × PyValue))
  | [] => .ok []
  | (k, v) :: rest => do
      let cv ← canonicalize_value v
      let crest ← canonEntries rest
      .ok ((k, cv) :: crest)
termination_by l => sizeOf l
decreasing_by
  all_goals simp_wf
  all_goals try rw [sizeOf_sortByKey]
  all_goals try simp
  all_goals omega

/-- Canonicalize list items left to right, propagating the first error. -/
def canonItems : List PyValue → Except String (List PyValue)
  | [] => .ok []
  | v :: rest => do
      let cv ← canonicalize_value v
      let crest ← canonItems rest
      .ok (cv :: crest)
termination_by l => sizeOf l
decreasing_by
  all_goals simp_wf
  all_goals try rw [sizeOf_sortByKey]
  all_goals try simp
  all_goals omega

end

mutual

/-- Model of the serialization performed by `json.dumps(canonical_data,
ensure_ascii=False, separators=(',', ':'), sort_keys=True)` on line 61 of
`canonicalize_v1.py`.  A non-serializable object raises `TypeError`. -/
def json_dumps : PyValue → Except String String
  | .null => .ok "null"
  | .bool b => .ok (if b then "true" else "false")
  | .int n => .ok (toString n)
  | .float f => .ok (floatRepr f)
  | .str s => .ok (jsonQuote s)
  | .list xs => (dumpItems xs).map (fun ss => "[" ++ joinComma ss ++ "]")
  | .dict l => (dumpEntries (sortByKey l)).map
      (fun ss => "\x7b" ++ joinComma ss ++ "\x7d")
  | .other t => .error ("Object of type " ++ t ++ " is not JSON serializable")
termination_by v => sizeOf v
decreasing_by
  all_goals simp_wf
  all_goals try rw [sizeOf_sortByKey]
  all_goals try simp
  all_goals omega

/-- Serialize (sorted) dict entries as `"key":value` strings. -/
def dumpEntries : List (String × PyValue) → Except String (List String)
  | [] => .ok []
  | (k, v) :: rest => do
      let sv ← json_dumps v
      let srest ← dumpEntries rest
      .ok ((jsonQuote k ++ ":" ++ sv) :: srest)
termination_by l => sizeOf l
decreasing_by
  all_goals simp_wf
  all_goals try rw [sizeOf_sortByKey]
  all_goals try simp
  all_goals omega

/-- Serialize list items in order. -/
def dumpItems : List PyValue → Except String (List String)
  | [] => .ok []
  | v :: rest => do
      let sv ← json_dumps v
      let srest ← dumpItems rest
      .ok (sv :: srest)
termination_by l => sizeOf l
decreasing_by
  all_goals simp_wf
  all_goals try rw [sizeOf_sortByKey]
  all_goals try simp
  all_goals omega

end

/-- Model of `canonicalize_json` (`canonicalize_v1.py` lines 45-66) on
dict/list/number inputs: canonicalize, then serialize compactly with sorted
keys.  (On a `str` argument the source first applies `json.loads`; no claim
under verification passes a string, so that parsing convenience is outside
this embedding.) -/
def canonicalize_json (data : PyValue) : Except String String :=
  (canonicalize_value data).bind json_dumps

/-- Model of `compute_canonical_hash` (`canonicalize_v1.py` lines 93-106):
SHA-256 hex digest of the UTF-8 canonical JSON string. -/
def compute_canonical_hash (data : PyValue) : Except String String :=
  (canonicalize_json data).map sha256_hex

mutual

/-- Spec-side characterization (§3, §4.1 of the spec): a value lies outside
the tagged-union model `{Null, Bool, Number, String, Sequence, Mapping}`
exactly when it contains an `other` node somewhere. -/
def hasUnsupported : PyValue → Bool
  | .null | .bool _ | .int _ | .float _ | .str _ => false
  | .dict l => hasUnsupportedEntries l
  | .list xs => hasUnsupportedItems xs
  | .other _ => true
termination_by v => sizeOf v
decreasing_by
  all_goals simp_wf
  all_goals try rw [sizeOf_sortByKey]
  all_goals try simp
  all_goals omega

/-- Some entry value lies outside the tagged-union model. -/
def hasUnsupportedEntries : List (String × PyValue) → Bool
  | [] => false
  | (_, v) :: rest => hasUnsupported v || hasUnsupportedEntries rest
termination_by l => sizeOf l
decreasing_by
  all_goals simp_wf
  all_goals try rw [sizeOf_sortByKey]
  all_goals try simp
  all_goals omega

/-- Some item lies outside the tagged-union model. -/
def hasUnsupportedItems : List PyValue → Bool
  | [] => false
  | v :: rest => hasUnsupported v || hasUnsupportedItems rest
termination_by l => sizeOf l
decreasing_by
  all_goals simp_wf
  all_goals try rw [sizeOf_sortByKey]
  all_goals try simp
  all_goals omega

end

/-- Pure-bind reduction for `Except` (do-notation unfolding). -/
theorem exceptBind_ok {α β ε : Type} (a : α) (f : α → Except ε β) :
    (Except.ok a : Except ε α) >>= f = f a := rfl

/-- Error-bind reduction for `Except`. -/
theorem exceptBind_error {α β ε : Type} (e : ε) (f : α → Except ε β) :
    (Except.error e : Except ε α) >>= f = Except.error e := rfl

/-- Reduction of `Except.bind` on a success. -/
theorem exceptBindF_ok {α β ε : Type} (a : α) (f : α → Except ε β) :
    (Except.ok a : Except ε α).bind f = f a := rfl

/-- Reduction of `Except.bind` on an error. -/
theorem exceptBindF_error {α β ε : Type} (e : ε) (f : α → Except ε β) :
    (Except.error e : Except ε α).bind f = Except.error e := rfl

/-- Reduction of `Except.map` on a success. -/
theorem exceptMap_ok {α β ε : Type} (a : α) (f : α → β) :
    Except.map f (Except.ok a : Except ε α) = Except.ok (f a) := rfl

/-- Reduction of `Except.map` on an error. -/
theorem exceptMap_error {α β ε : Type} (e : ε) (f : α → β) :
    Except.map f (Except.error e : Except ε α) = Except.error e := rfl

-- Evaluation anchors for the serializer model.
example : canonicalize_json (.dict [("z", .int 1), ("a", .int 2)]) =
    .ok "\x7b\"a\":2,\"z\":1\x7d" := by
  simp +decide [canonicalize_json, canonicalize_value, canonEntries, sortByKey, insortKey,
    json_dumps, dumpEntries, jsonQuote, escapeChar, joinComma, bslash, dquote,
    exceptBind_ok, exceptBind_error, exceptBindF_ok, exceptBindF_error, exceptMap_ok,
    exceptMap_error]

example : canonicalize_json (.float (.finite 1)) = .ok "1.0" := by
  simp +decide [canonicalize_json, canonicalize_value, json_dumps, floatRepr, pyFloatRepr,
    countFactor, countFactorAux, exceptBind_ok, exceptBindF_ok]

example : canonicalize_json (.float .nan) = .ok "NaN" := by
  simp [canonicalize_json, canonicalize_value, json_dumps, floatRepr, exceptBind_ok, exceptBindF_ok]

/-! ## Model of `compare_tampa.py`

`ComparisonResult._compare` (lines 23-59): zero executions → no consensus,
one execution → trivial consensus, otherwise hash every execution's
`outputs`, record a `failed` discrepancy for each execution whose hashing
raises, and check the successfully computed hashes for unanimity.  The
per-execution loop is modelled by `collectHashes`, which returns the hashed
triples and the failure discrepancies in loop order. -/

/-- A Python dict with string keys (e.g. one execution record). -/
abbrev PyDict := List (String × PyValue)

/-- Model of `execution.get("outputs", {})`. -/
def getOutputs (e : PyDict) : PyValue := (List.lookup "outputs" e).getD (.dict [])

/-- One entry of `ComparisonResult.discrepancies`: either the record
`{execution_index, error}` pushed when hashing raised, or the record
`{execution_index, canonical_hash, output}` pushed on disagreement. -/
inductive Discrepancy : Type where
  | failed (execution_index : Nat) (error : String)
  | mismatch (execution_index : Nat) (canonical_hash : String) (output : PyValue)

/-- The fields of `ComparisonResult` set by `_compare`. -/
structure ComparisonResult where
  consensus_reached : Bool
  canonical_output : Option PyValue
  discrepancies : List Discrepancy

/-- The hashing loop of `_compare` (lines 34-44), starting at execution
index `i`: returns the `(index, hash, output)` triples of the executions
that hashed successfully and the `failed` discrepancies of those that did
not, each in loop order. -/
def collectHashes (i : Nat) : List PyDict → List (Nat × String × PyValue) × List Discrepancy
  | [] => ([], [])
  | e :: rest =>
      let out := getOutputs e
      let r := collectHashes (i + 1) rest
      match compute_canonical_hash out with
      | .ok h => ((i, h, out) :: r.1, r.2)
      | .error msg => (r.1, .failed i ("Failed to canonicalize: " ++ msg) :: r.2)

/-- Model of `compare_tampa_results` / `ComparisonResult._compare`
(`compare_tampa.py` lines 16-59 and 72-82). -/
def compare_tampa_results (executions : List PyDict) : ComparisonResult :=
  match executions with
  | [] => ⟨false, none, []⟩
  | [e] => ⟨true, some (getOutputs e), []⟩
  | _ =>
      let r := collectHashes 0 executions
      match r.1 with
      | [] => ⟨false, none, r.2⟩
      | (_, h0, o0) :: tl =>
          if tl.all (fun x => x.2.1 == h0) then ⟨true, some o0, r.2⟩
          else ⟨false, none,
            r.2 ++ r.1.map (fun x => .mismatch x.1 x.2.1 x.2.2)⟩

/-- The hash an execution's outputs produce when hashing succeeds. -/
def hashOf (e : PyDict) : String :=
  ((compute_canonical_hash (getOutputs e)).toOption).getD ""

/-- The successfully hashed `(index, hash, output)` triples of `_compare`'s
loop, described directly. -/
def okHashes (executions : List PyDict) : List (Nat × String × PyValue) :=
  executions.enum.filterMap (fun p =>
    match compute_canonical_hash (getOutputs p.2) with
    | .ok h => some (p.1, h, getOutputs p.2)
    | .error _ => none)

/-- Characterization of the hashing loop: successes in order. -/
theorem collectHashes_fst (i : Nat) (l : List PyDict) :
    (collectHashes i l).1 = (l.enumFrom i).filterMap (fun p =>
      match compute_canonical_hash (getOutputs p.2) with
      | .ok h => some (p.1, h, getOutputs p.2)
      | .error _ => none) := by
  induction l generalizing i with
  | nil => rfl
  | cons e rest ih =>
      simp only [collectHashes, List.enumFrom, List.filterMap_cons]
      cases h : compute_canonical_hash (getOutputs e) with
      | ok v => simp [h, ih]
      | error msg => simp [h, ih]

/-- Characterization of the hashing loop: failures in order. -/
theorem collectHashes_snd (i : Nat) (l : List PyDict) :
    (collectHashes i l).2 = (l.enumFrom i).filterMap (fun p =>
      match compute_canonical_hash (getOutputs p.2) with
      | .ok _ => none
      | .error msg => some (.failed p.1 ("Failed to canonicalize: " ++ msg))) := by
  induction l generalizing i with
  | nil => rfl
  | cons e rest ih =>
      simp only [collectHashes, List.enumFrom, List.filterMap_cons]
      cases h : compute_canonical_hash (getOutputs e) with
      | ok v => simp [h, ih]
      | error msg => simp [h, ih]

/-- When every execution hashes successfully the loop produces the full
enumerated triple list and no failure discrepancies. -/
theorem collectHashes_all_ok (i : Nat) (l : List PyDict)
    (h : ∀ e ∈ l, (compute_canonical_hash (getOutputs e)).isOk = true) :
    collectHashes i l =
      ((l.enumFrom i).map (fun p => (p.1, hashOf p.2, getOutputs p.2)), []) := by
  induction l generalizing i with
  | nil => rfl
  | cons e rest ih =>
      have he := h e (List.mem_cons_self e rest)
      have hrest : ∀ x ∈ rest, (compute_canonical_hash (getOutputs x)).isOk = true :=
        fun x hx => h x (List.mem_cons_of_mem e hx)
      cases hc : compute_canonical_hash (getOutputs e) with
      | ok v =>
          simp only [collectHashes, List.enumFrom, List.map_cons, hc, ih _ hrest]
          simp [hashOf, hc, Except.toOption]
      | error msg => simp [hc, Except.isOk, Except.toBool] at he

/-! ## Model of `schema_tampa.py` and `validate_tampa.py`

The Pydantic models become plain structures over exact rationals, and the
Field constraints (`ge=`/`le=`/`pattern=`) become the boolean gate
`structOk`, which `validate_tampa_output` checks first — exactly the
fail-fast structural gate of lines 109-113.  Inputs that are not even
field-complete, well-typed dictionaries are likewise rejected by Pydantic
before any semantic check, so the embedding ranges over typed records. -/

/-- Model of `Span` of `schema_tampa.py` (lines 9-17); `end_` stands for the
Python field `end`, a Lean keyword. -/
structure Span where
  text : String
  start : Int
  end_ : Int
  context : String
  source_url : Option String
  main_content_match : Bool
  drhash : String

/-- Model of `SupportingSource` of `schema_tampa.py` (lines 20-23). -/
structure SupportingSource where
  url : String
  authority_score : ℚ

/-- Model of `ProvenanceBreakdown` of `schema_tampa.py` (lines 26-33). -/
structure ProvenanceBreakdown where
  match_base : ℚ
  main_content_bonus : ℚ
  integrity_adjust : ℚ
  multisource_bonus : ℚ
  authority_boost : ℚ
  final : ℚ

/-- Model of `Internal` of `schema_tampa.py` (lines 36-40). -/
structure Internal where
  drhash : String
  canonical_sample : String
  canonicalize_version : String

/-- Model of `TampaOutput` of `schema_tampa.py` (lines 43-56). -/
structure TampaOutput where
  verdict_hint : String
  matched_spans : List Span
  supporting_sources : List SupportingSource
  checks : List String
  provenance_breakdown : ProvenanceBreakdown
  provenanceConfidence : ℚ
  internal : Internal
  runtime_ms : Int
  sigma_trace : List Int
  tampa_sigma : Int
  model_version : Option String
  prompt_version : Option String

/-- The `pattern="^(JA|WEAK_MATCH|NO_MATCH)$"` constraint on `verdict_hint`. -/
def verdictOk (s : String) : Bool :=
  s == "JA" || s == "WEAK_MATCH" || s == "NO_MATCH"

/-- The conjunction of every Field constraint of the Pydantic schema: this is
what `TampaOutput(**tampa_json)` enforces beyond types and field presence. -/
def structOk (t : TampaOutput) : Prop :=
  verdictOk t.verdict_hint = true ∧
  (∀ s ∈ t.matched_spans, 0 ≤ s.start ∧ 0 ≤ s.end_) ∧
  (∀ ss ∈ t.supporting_sources, 0 ≤ ss.authority_score ∧ ss.authority_score ≤ 1) ∧
  0 ≤ t.provenance_breakdown.match_base ∧ t.provenance_breakdown.match_base ≤ 1 ∧
  0 ≤ t.provenance_breakdown.main_content_bonus ∧
  t.provenance_breakdown.main_content_bonus ≤ 1 ∧
  -1 ≤ t.provenance_breakdown.integrity_adjust ∧
  t.provenance_breakdown.integrity_adjust ≤ 1 ∧
  0 ≤ t.provenance_breakdown.multisource_bonus ∧
  t.provenance_breakdown.multisource_bonus ≤ 1 ∧
  0 ≤ t.provenance_breakdown.authority_boost ∧
  t.provenance_breakdown.authority_boost ≤ 1 ∧
  0 ≤ t.provenance_breakdown.final ∧ t.provenance_breakdown.final ≤ 995 / 1000 ∧
  0 ≤ t.provenanceConfidence ∧ t.provenanceConfidence ≤ 995 / 1000 ∧
  0 ≤ t.tampa_sigma ∧ t.tampa_sigma ≤ 12

instance structOkDecidable (t : TampaOutput) : Decidable (structOk t) := by
  unfold structOk
  infer_instance

/-- The failure outcomes of `validate_tampa_output`; each constructor is one
`error_code` prefix of the returned `"error_code:details"` string, with the
interpolated details carried as payload (span error codes carry the span
index as payload rather than interpolated into the code). -/
inductive VError : Type where
  | pydantic_validation_failed : VError
  | missing_top_field (field : String) : VError
  | provenance_mismatch (pc pb_final : ℚ) : VError
  | provenance_out_of_range (field : String) (value : ℚ) : VError
  | drhash_mismatch (expected got : String) : VError
  | span_invalid_type (idx : Nat) : VError
  | span_invalid_range (idx : Nat) (reason : String) : VError
  | span_out_of_bounds (idx : Nat) (start stop : Int) (len : Nat) : VError
  | span_text_mismatch (idx : Nat) (expected got : String) : VError
  | span_drhash_mismatch (idx : Nat) (expected got : String) : VError

/-- The `error_code` prefix of a validation failure. -/
def VError.code : VError → String
  | .pydantic_validation_failed => "pydantic_validation_failed"
  | .missing_top_field _ => "missing_top_field"
  | .provenance_mismatch _ _ => "provenance_mismatch"
  | .provenance_out_of_range _ _ => "provenance_out_of_range"
  | .drhash_mismatch _ _ => "drhash_mismatch"
  | .span_invalid_type _ => "span_invalid_type"
  | .span_invalid_range _ _ => "span_invalid_range"
  | .span_out_of_bounds _ _ _ _ => "span_out_of_bounds"
  | .span_text_mismatch _ _ _ => "span_text_mismatch"
  | .span_drhash_mismatch _ _ _ => "span_drhash_mismatch"

/-- The error code of a validation outcome (`none` for success). -/
def errorCode (r : Except VError Unit) : Option String :=
  match r with
  | .ok _ => none
  | .error e => some e.code

/-- Round a rational to the nearest integer, ties to the even neighbour —
the rounding of Python's built-in `round`. -/
def roundHalfEven (q : ℚ) : ℤ :=
  let f := Rat.floor q
  let r := q - f
  if r < 1 / 2 then f
  else if 1 / 2 < r then f + 1
  else if f % 2 = 0 then f else f + 1

/-- Model of Python `round(x, 3)` over the exact-rational abstraction of
floats: scale by `10^3`, round half to even, unscale. -/
def pyRound3 (q : ℚ) : ℚ := (roundHalfEven (q * 1000) : ℚ) / 1000

/-- The constant `PROVENANCE_TOLERANCE` (`validate_tampa.py` line 125). -/
def PROVENANCE_TOLERANCE : ℚ := 2 / 1000

/-- The body of the per-span loop of `validate_tampa_output` (lines 160-183),
for the span at index `idx`: the range checks, the bounds check, the
codepoint-slice comparison and the span drhash comparison, in source order,
stopping at the first failure.  (The `isinstance(span.start, int)` check of
line 164 is vacuous here: the schema already types `start`/`end` as
integers.)  `expected_drhash` is `sha256_hex(canonical_text)`, computed once
at line 155. -/
def validate_span (idx : Nat) (span : Span) (canonical_text : String)
    (expected_drhash : String) : Except VError Unit :=
  if span.start < 0 then .error (.span_invalid_range idx "start<0")
  else if span.end_ < span.start then .error (.span_invalid_range idx "end<start")
  else if span.start > (canonical_text.length : Int) ∨
          span.end_ > (canonical_text.length : Int) then
    .error (.span_out_of_bounds idx span.start span.end_ canonical_text.length)
  else
    let actual := String.mk
      ((canonical_text.data.drop span.start.toNat).take (span.end_ - span.start).toNat)
    if actual ≠ span.text then .error (.span_text_mismatch idx span.text actual)
    else if span.drhash ≠ expected_drhash then
      .error (.span_drhash_mismatch idx expected_drhash span.drhash)
    else .ok ()

/-- The `for idx, span in enumerate(output.matched_spans)` loop of lines
159-183: validate each span in order, aborting at the first failure. -/
def validate_spans (idx : Nat) (spans : List Span) (canonical_text : String)
    (expected_drhash : String) : Except VError Unit :=
  match spans with
  | [] => .ok ()
  | s :: rest =>
      (validate_span idx s canonical_text expected_drhash).bind
        (fun _ => validate_spans (idx + 1) rest canonical_text expected_drhash)

/-- Model of `validate_tampa_output` (`validate_tampa.py` lines 85-186).
Step 2 (lines 116-120) re-checks that the five required top-level fields are
present in the input dict; once Pydantic has accepted the input they always
are (all five are required fields of the model), so the loop never returns
`missing_top_field` and is a no-op in the typed embedding. -/
def validate_tampa_output (t : TampaOutput) (canonical_text : String) :
    Except VError Unit :=
  -- Step 1 (lines 110-113): Pydantic structural gate.
  if ¬ structOk t then .error .pydantic_validation_failed
  else
  -- Step 3 (lines 122-134): provenanceConfidence vs provenance_breakdown.final.
  let pc_rounded := pyRound3 t.provenanceConfidence
  let pb_final_rounded := pyRound3 t.provenance_breakdown.final
  if |pc_rounded - pb_final_rounded| > PROVENANCE_TOLERANCE then
    .error (.provenance_mismatch pc_rounded pb_final_rounded)
  -- Step 4 (lines 136-152): explicit range checks, in source order.
  else if ¬ (0 ≤ t.provenanceConfidence ∧ t.provenanceConfidence ≤ 995 / 1000) then
    .error (.provenance_out_of_range "provenanceConfidence" t.provenanceConfidence)
  else if ¬ (0 ≤ t.provenance_breakdown.match_base ∧
             t.provenance_breakdown.match_base ≤ 1) then
    .error (.provenance_out_of_range "match_base" t.provenance_breakdown.match_base)
  else if ¬ (0 ≤ t.provenance_breakdown.main_content_bonus ∧
             t.provenance_breakdown.main_content_bonus ≤ 1) then
    .error (.provenance_out_of_range "main_content_bonus"
      t.provenance_breakdown.main_content_bonus)
  else if ¬ (-1 ≤ t.provenance_breakdown.integrity_adjust ∧
             t.provenance_breakdown.integrity_adjust ≤ 1) then
    .error (.provenance_out_of_range "integrity_adjust"
      t.provenance_breakdown.integrity_adjust)
  else if ¬ (0 ≤ t.provenance_breakdown.multisource_bonus ∧
             t.provenance_breakdown.multisource_bonus ≤ 1) then
    .error (.provenance_out_of_range "multisource_bonus"
      t.provenance_breakdown.multisource_bonus)
  else if ¬ (0 ≤ t.provenance_breakdown.authority_boost ∧
             t.provenance_breakdown.authority_boost ≤ 1) then
    .error (.provenance_out_of_range "authority_boost"
      t.provenance_breakdown.authority_boost)
  else if ¬ (0 ≤ t.provenance_breakdown.final ∧
             t.provenance_breakdown.final ≤ 995 / 1000) then
    .error (.provenance_out_of_range "final" t.provenance_breakdown.final)
  else
  -- Step 5 (lines 154-157): internal.drhash against sha256 of the text.
  let expected_drhash := sha256_hex canonical_text
  if t.internal.drhash ≠ expected_drhash then
    .error (.drhash_mismatch expected_drhash t.internal.drhash)
  -- Step 6 (lines 159-183): per-span validation.
  else validate_spans 0 t.matched_spans canonical_text expected_drhash

/-! ## Supporting lemmas -/

/-- Reduction of `Except.isOk` on a success. -/
theorem exceptIsOk_ok {α ε : Type} (a : α) : (Except.ok a : Except ε α).isOk = true := rfl

/-- Reduction of `Except.isOk` on an error. -/
theorem exceptIsOk_error {α ε : Type} (e : ε) :
    (Except.error e : Except ε α).isOk = false := rfl

/-- Mapping preserves success. -/
theorem exceptMap_isOk {α β ε : Type} (f : α → β) (x : Except ε α) :
    (Except.map f x).isOk = x.isOk := by cases x <;> rfl

/-- Inserting an entry is a permutation of consing it. -/
theorem insortKey_perm (x : String × PyValue) (l : List (String × PyValue)) :
    List.Perm (insortKey x l) (x :: l) := by
  induction l with
  | nil => exact List.Perm.refl _
  | cons y ys ih =>
      simp only [insortKey]
      split
      · exact List.Perm.refl _
      · exact (List.Perm.cons y ih).trans (List.Perm.swap x y ys)

/-- Sorting dict entries is a permutation. -/
theorem sortByKey_perm (l : List (String × PyValue)) : List.Perm (sortByKey l) l := by
  induction l with
  | nil => exact List.Perm.refl _
  | cons x xs ih => exact (insortKey_perm x (sortByKey xs)).trans (List.Perm.cons x ih)

/-- Membership is unchanged by the sort. -/
theorem mem_sortByKey {p : String × PyValue} {l : List (String × PyValue)} :
    p ∈ sortByKey l ↔ p ∈ l := (sortByKey_perm l).mem_iff

/-- The loop `canonEntries` succeeds iff every entry value canonicalizes. -/
theorem canonEntries_isOk (el : List (String × PyValue)) :
    (canonEntries el).isOk = true ↔ ∀ p ∈ el, (canonicalize_value p.2).isOk = true := by
  induction el with
  | nil => simp [canonEntries, exceptIsOk_ok]
  | cons p rest ih =>
      obtain ⟨k, v⟩ := p
      cases hv : canonicalize_value v with
      | ok cv =>
          cases hr : canonEntries rest with
          | ok crest =>
              have hL : canonEntries ((k, v) :: rest) = .ok ((k, cv) :: crest) := by
                simp [canonEntries, hv, hr, exceptBind_ok]
              rw [hL]
              constructor
              · intro _ p hp
                rcases List.mem_cons.mp hp with h | h
                · rw [h, hv]; rfl
                · exact ih.mp (by rw [hr]; rfl) p h
              · intro _; rfl
          | error s =>
              have hL : canonEntries ((k, v) :: rest) = .error s := by
                simp [canonEntries, hv, hr, exceptBind_ok, exceptBind_error]
              rw [hL]
              constructor
              · intro h; exact absurd h (by simp [exceptIsOk_error])
              · intro hall
                have hrest : (canonEntries rest).isOk = true :=
                  ih.mpr (fun p hp => hall p (List.mem_cons_of_mem _ hp))
                rw [hr] at hrest
                exact absurd hrest (by simp [exceptIsOk_error])
      | error s =>
          have hL : canonEntries ((k, v) :: rest) = .error s := by
            simp [canonEntries, hv, exceptBind_error]
          rw [hL]
          constructor
          · intro h; exact absurd h (by simp [exceptIsOk_error])
          · intro hall
            have := hall (k, v) (List.mem_cons_self _ _)
            rw [hv] at this
            exact absurd this (by simp [exceptIsOk_error])

/-- The loop `canonItems` succeeds iff every item canonicalizes. -/
theorem canonItems_isOk (l : List PyValue) :
    (canonItems l).isOk = true ↔ ∀ v ∈ l, (canonicalize_value v).isOk = true := by
  induction l with
  | nil => simp [canonItems, exceptIsOk_ok]
  | cons v rest ih =>
      cases hv : canonicalize_value v with
      | ok cv =>
          cases hr : canonItems rest with
          | ok crest =>
              have hL : canonItems (v :: rest) = .ok (cv :: crest) := by
                simp [canonItems, hv, hr, exceptBind_ok]
              rw [hL]
              constructor
              · intro _ u hu
                rcases List.mem_cons.mp hu with h | h
                · rw [h, hv]; rfl
                · exact ih.mp (by rw [hr]; rfl) u h
              · intro _; rfl
          | error s =>
              have hL : canonItems (v :: rest) = .error s := by
                simp [canonItems, hv, hr, exceptBind_ok, exceptBind_error]
              rw [hL]
              constructor
              · intro h; exact absurd h (by simp [exceptIsOk_error])
              · intro hall
                have hrest : (canonItems rest).isOk = true :=
                  ih.mpr (fun u hu => hall u (List.mem_cons_of_mem _ hu))
                rw [hr] at hrest
                exact absurd hrest (by simp [exceptIsOk_error])
      | error s =>
          have hL : canonItems (v :: rest) = .error s := by
            simp [canonItems, hv, exceptBind_error]
          rw [hL]
          constructor
          · intro h; exact absurd h (by simp [exceptIsOk_error])
          · intro hall
            have := hall v (List.mem_cons_self _ _)
            rw [hv] at this
            exact absurd this (by simp [exceptIsOk_error])

/-- Entry-wise reading of `hasUnsupportedEntries`. -/
theorem hasUnsupportedEntries_iff (el : List (String × PyValue)) :
    hasUnsupportedEntries el = false ↔ ∀ p ∈ el, hasUnsupported p.2 = false := by
  induction el with
  | nil => simp [hasUnsupportedEntries]
  | cons p rest ih =>
      obtain ⟨k, v⟩ := p
      simp [hasUnsupportedEntries, ih]

/-- Item-wise reading of `hasUnsupportedItems`. -/
theorem hasUnsupportedItems_iff (l : List PyValue) :
    hasUnsupportedItems l = false ↔ ∀ v ∈ l, hasUnsupported v = false := by
  induction l with
  | nil => simp [hasUnsupportedItems]
  | cons v rest ih => simp [hasUnsupportedItems, ih]

/-- An entry value is smaller than the dict holding it. -/
theorem sizeOf_snd_lt_dict {p : String × PyValue} {l : List (String × PyValue)}
    (hp : p ∈ l) : sizeOf p.2 < sizeOf (PyValue.dict l) := by
  have h1 := List.sizeOf_lt_of_mem hp
  obtain ⟨k, v⟩ := p
  simp only [Prod.mk.sizeOf_spec] at h1
  simp only [PyValue.dict.sizeOf_spec]
  omega

/-- An item is smaller than the list value holding it. -/
theorem sizeOf_mem_lt_list {v : PyValue} {l : List PyValue} (hv : v ∈ l) :
    sizeOf v < sizeOf (PyValue.list l) := by
  have h1 := List.sizeOf_lt_of_mem hv
  simp only [PyValue.list.sizeOf_spec]
  omega

/-- Core of the C5 analysis: canonicalization succeeds exactly on values
inside the tagged-union model. -/
theorem canonicalize_isOk_iff (v : PyValue) :
    (canonicalize_value v).isOk = true ↔ hasUnsupported v = false := by
  suffices H : ∀ n v, sizeOf v = n →
      ((canonicalize_value v).isOk = true ↔ hasUnsupported v = false) from H _ v rfl
  intro n
  induction n using Nat.strong_induction_on with
  | _ n ih =>
      intro v hv
      cases v with
      | null => simp [canonicalize_value, hasUnsupported, exceptIsOk_ok]
      | bool b => simp [canonicalize_value, hasUnsupported, exceptIsOk_ok]
      | int m => simp [canonicalize_value, hasUnsupported, exceptIsOk_ok]
      | float f => simp [canonicalize_value, hasUnsupported, exceptIsOk_ok]
      | str s => simp [canonicalize_value, hasUnsupported, exceptIsOk_ok]
      | other t => simp [canonicalize_value, hasUnsupported, exceptIsOk_error]
      | dict l =>
          simp only [canonicalize_value, hasUnsupported, exceptMap_isOk,
            canonEntries_isOk, hasUnsupportedEntries_iff]
          constructor
          · intro h p hp
            have hmem : p ∈ sortByKey l := mem_sortByKey.mpr hp
            have hlt : sizeOf p.2 < n := hv ▸ sizeOf_snd_lt_dict hp
            exact (ih _ hlt p.2 rfl).mp (h p hmem)
          · intro h p hp
            have hmem : p ∈ l := mem_sortByKey.mp hp
            have hlt : sizeOf p.2 < n := hv ▸ sizeOf_snd_lt_dict hmem
            exact (ih _ hlt p.2 rfl).mpr (h p hmem)
      | list xs =>
          simp only [canonicalize_value, hasUnsupported, exceptMap_isOk,
            canonItems_isOk, hasUnsupportedItems_iff]
          constructor
          · intro h u hu
            have hlt : sizeOf u < n := hv ▸ sizeOf_mem_lt_list hu
            exact (ih _ hlt u rfl).mp (h u hu)
          · intro h u hu
            have hlt : sizeOf u < n := hv ▸ sizeOf_mem_lt_list hu
            exact (ih _ hlt u rfl).mpr (h u hu)

/-- A failing `canonEntries` pinpoints a failing entry value. -/
theorem canonEntries_error_mem (el : List (String × PyValue)) (s : String)
    (h : canonEntries el = .error s) : ∃ p ∈ el, canonicalize_value p.2 = .error s := by
  induction el with
  | nil => exact absurd h (by simp [canonEntries])
  | cons p rest ih =>
      obtain ⟨k, v⟩ := p
      cases hv : canonicalize_value v with
      | ok cv =>
          cases hr : canonEntries rest with
          | ok crest =>
              rw [show canonEntries ((k, v) :: rest) = .ok ((k, cv) :: crest) from by
                simp [canonEntries, hv, hr, exceptBind_ok]] at h
              cases h
          | error s2 =>
              rw [show canonEntries ((k, v) :: rest) = .error s2 from by
                simp [canonEntries, hv, hr, exceptBind_ok, exceptBind_error]] at h
              obtain ⟨q, hq, hqe⟩ := ih (by rw [hr, h.symm.subst rfl] <;> cases h <;> rfl)
              exact ⟨q, List.mem_cons_of_mem _ hq, hqe⟩
      | error s2 =>
          rw [show canonEntries ((k, v) :: rest) = .error s2 from by
            simp [canonEntries, hv, exceptBind_error]] at h
          cases h
          exact ⟨(k, v), List.mem_cons_self _ _, hv⟩

/-- A failing `canonItems` pinpoints a failing item. -/
theorem canonItems_error_mem (l : List PyValue) (s : String)
    (h : canonItems l = .error s) : ∃ v ∈ l, canonicalize_value v = .error s := by
  induction l with
  | nil => exact absurd h (by simp [canonItems])
  | cons v rest ih =>
      cases hv : canonicalize_value v with
      | ok cv =>
          cases hr : canonItems rest with
          | ok crest =>
              rw [show canonItems (v :: rest) = .ok (cv :: crest) from by
                simp [canonItems, hv, hr, exceptBind_ok]] at h
              cases h
          | error s2 =>
              rw [show canonItems (v :: rest) = .error s2 from by
                simp [canonItems, hv, hr, exceptBind_ok, exceptBind_error]] at h
              cases h
              obtain ⟨u, hu, hue⟩ := ih hr
              exact ⟨u, List.mem_cons_of_mem _ hu, hue⟩
      | error s2 =>
          rw [show canonItems (v :: rest) = .error s2 from by
            simp [canonItems, hv, exceptBind_error]] at h
          cases h
          exact ⟨v, List.mem_cons_self _ _, hv⟩

/-- Every canonicalization failure carries the `ValueError` message of
`canonicalize_value` line 42. -/
theorem canonicalize_error_shape (v : PyValue) (s : String)
    (h : canonicalize_value v = .error s) :
    ∃ t, s = "Unsupported type for canonicalization: " ++ t := by
  suffices H : ∀ n v s, sizeOf v = n → canonicalize_value v = .error s →
      ∃ t, s = "Unsupported type for canonicalization: " ++ t from H _ v s rfl h
  clear h v s
  intro n
  induction n using Nat.strong_induction_on with
  | _ n ih =>
      intro v s hv h
      cases v with
      | null => simp [canonicalize_value] at h
      | bool b => simp [canonicalize_value] at h
      | int m => simp [canonicalize_value] at h
      | float f => simp [canonicalize_value] at h
      | str t => simp [canonicalize_value] at h
      | other t =>
          rw [show canonicalize_value (PyValue.other t) =
            .error ("Unsupported type for canonicalization: " ++ t) from by
              simp [canonicalize_value]] at h
          cases h
          exact ⟨t, rfl⟩
      | dict l =>
          have hent : canonEntries (sortByKey l) = .error s := by
            cases he : canonEntries (sortByKey l) with
            | ok es => rw [show canonicalize_value (PyValue.dict l) =
                .ok (PyValue.dict es) from by
                  simp [canonicalize_value, he, exceptMap_ok]] at h; cases h
            | error s2 => rw [show canonicalize_value (PyValue.dict l) =
                .error s2 from by
                  simp [canonicalize_value, he, exceptMap_error]] at h
                          cases h; rfl
          obtain ⟨p, hp, hpe⟩ := canonEntries_error_mem _ _ hent
          have hlt : sizeOf p.2 < n := hv ▸ sizeOf_snd_lt_dict (mem_sortByKey.mp hp)
          exact ih _ hlt p.2 s rfl hpe
      | list xs =>
          have hit : canonItems xs = .error s := by
            cases he : canonItems xs with
            | ok es => rw [show canonicalize_value (PyValue.list xs) =
                .ok (PyValue.list es) from by
                  simp [canonicalize_value, he, exceptMap_ok]] at h; cases h
            | error s2 => rw [show canonicalize_value (PyValue.list xs) =
                .error s2 from by
                  simp [canonicalize_value, he, exceptMap_error]] at h
                          cases h; rfl
          obtain ⟨u, hu, hue⟩ := canonItems_error_mem _ _ hit
          have hlt : sizeOf u < n := hv ▸ sizeOf_mem_lt_list hu
          exact ih _ hlt u s rfl hue

/-! ## Claim C7 -/

/-- C7: comparing zero executions yields `agreed=false`, no canonical output
and no discrepancies; comparing one execution yields `agreed=true` with
`canonical_output` equal to that execution's outputs and no discrepancies. -/
theorem compare_zero_and_one_executions :
    compare_tampa_results [] = ⟨false, none, []⟩ ∧
    ∀ e : PyDict, compare_tampa_results [e] = ⟨true, some (getOutputs e), []⟩ :=
  ⟨rfl, fun _ => rfl⟩

/-! ## Claim C5 -/

/-- C5 counterexample: canonicalizing the non-finite float NaN does not raise
an unsupported-type error — it succeeds and produces the canonical string
`NaN` (CPython `json.dumps` default `allow_nan=True`). -/
theorem canonicalize_nan_produces_bytes :
    canonicalize_json (PyValue.float FloatV.nan) = Except.ok "NaN" := by
  simp [canonicalize_json, canonicalize_value, json_dumps, floatRepr, exceptBindF_ok]

/-- C5 (amended): canonicalization fails, with the unsupported-type
`ValueError`, exactly for values containing a component outside the
tagged-union model `{Null, Bool, Number, String, Sequence, Mapping}`;
non-finite floats are Numbers and are serialized (as `NaN` / `Infinity`)
rather than rejected. -/
theorem canonicalize_fails_iff_outside_model :
    (∀ v : PyValue, (canonicalize_value v).isOk = true ↔ hasUnsupported v = false) ∧
    (∀ (v : PyValue) (s : String), canonicalize_value v = Except.error s →
      ∃ t, s = "Unsupported type for canonicalization: " ++ t) ∧
    canonicalize_json (PyValue.float FloatV.nan) = Except.ok "NaN" ∧
    canonicalize_json (PyValue.float FloatV.inf) = Except.ok "Infinity" := by
  refine ⟨canonicalize_isOk_iff, canonicalize_error_shape, ?_, ?_⟩ <;>
    simp [canonicalize_json, canonicalize_value, json_dumps, floatRepr, exceptBindF_ok]

/-- Witness for C5's amended theorem at the concrete value `set()` (a Python
object outside the model) and at NaN. -/
theorem canonicalize_fails_iff_outside_model_witness :
    (∃ t, ("Unsupported type for canonicalization: set" : String) =
      "Unsupported type for canonicalization: " ++ t) ∧
    ((canonicalize_value (PyValue.other "set")).isOk = true ↔
      hasUnsupported (PyValue.other "set") = false) :=
  ⟨canonicalize_fails_iff_outside_model.2.1 (PyValue.other "set") _
      (by simp [canonicalize_value]),
   canonicalize_fails_iff_outside_model.1 (PyValue.other "set")⟩

/-! ## Claim C9 -/

/-- C9: the integer `1` and the float `1.0` produce different canonical
strings, and the content hashes of `{"a": 1}` and `{"a": 1.0}` differ. -/
theorem int_float_distinct_canonical_hashes :
    canonicalize_json (PyValue.int 1) ≠
      canonicalize_json (PyValue.float (FloatV.finite 1)) ∧
    compute_canonical_hash (PyValue.dict [("a", PyValue.int 1)]) ≠
      compute_canonical_hash (PyValue.dict [("a", PyValue.float (FloatV.finite 1))]) := by
  have h1 : canonicalize_json (PyValue.dict [("a", PyValue.int 1)]) =
      .ok "\x7b\"a\":1\x7d" := by
    simp +decide [canonicalize_json, canonicalize_value, canonEntries, sortByKey,
      insortKey, json_dumps, dumpEntries, jsonQuote, escapeChar, joinComma, bslash,
      dquote, exceptBind_ok, exceptBindF_ok, exceptMap_ok]
  have h2 : canonicalize_json (PyValue.dict [("a", PyValue.float (FloatV.finite 1))]) =
      .ok "\x7b\"a\":1.0\x7d" := by
    simp +decide [canonicalize_json, canonicalize_value, canonEntries, sortByKey,
      insortKey, json_dumps, dumpEntries, jsonQuote, escapeChar, joinComma, bslash,
      dquote, floatRepr, pyFloatRepr, countFactor, countFactorAux,
      exceptBind_ok, exceptBindF_ok, exceptMap_ok]
  have h3 : canonicalize_json (PyValue.int 1) = .ok "1" := by
    simp [canonicalize_json, canonicalize_value, json_dumps, exceptBindF_ok]
    decide
  have h4 : canonicalize_json (PyValue.float (FloatV.finite 1)) = .ok "1.0" := by
    simp +decide [canonicalize_json, canonicalize_value, json_dumps, floatRepr,
      pyFloatRepr, countFactor, countFactorAux, exceptBindF_ok]
  constructor
  · rw [h3, h4]
    simp only [ne_eq, Except.ok.injEq]
    decide
  · simp only [compute_canonical_hash, h1, h2, exceptMap_ok, ne_eq, Except.ok.injEq]
    decide

/-! ## Claim C8 -/

/-- Inserting into a key-sorted entry list keeps it key-sorted. -/
theorem insortKey_pairwise (x : String × PyValue) (l : List (String × PyValue))
    (h : List.Pairwise (fun a b : String × PyValue => a.1 ≤ b.1) l) :
    List.Pairwise (fun a b : String × PyValue => a.1 ≤ b.1) (insortKey x l) := by
  induction l with
  | nil => simp [insortKey]
  | cons y ys ih =>
      rcases List.pairwise_cons.mp h with ⟨hy, hys⟩
      simp only [insortKey]
      split
      · refine List.pairwise_cons.mpr ⟨?_, h⟩
        intro b hb
        rcases List.mem_cons.mp hb with hb | hb
        · exact hb ▸ le_of_lt (by assumption)
        · exact le_trans (le_of_lt (by assumption)) (hy b hb)
      · refine List.pairwise_cons.mpr ⟨?_, ih hys⟩
        intro b hb
        rcases List.mem_cons.mp ((insortKey_perm x ys).mem_iff.mp hb) with hb | hb
        · subst hb; exact le_of_not_lt (by assumption)
        · exact hy b hb
      
/-- Sorting by key yields a key-sorted entry list. -/
theorem sortByKey_pairwise (l : List (String × PyValue)) :
    List.Pairwise (fun a b : String × PyValue => a.1 ≤ b.1) (sortByKey l) := by
  induction l with
  | nil => simp [sortByKey]
  | cons x xs ih => exact insortKey_pairwise x (sortByKey xs) ih

/-- With duplicate-free keys, a key-sorted entry list is strictly sorted. -/
theorem pairwise_lt_of_le_nodup (l : List (String × PyValue))
    (hle : List.Pairwise (fun a b : String × PyValue => a.1 ≤ b.1) l)
    (hnd : (l.map Prod.fst).Nodup) :
    List.Pairwise (fun a b : String × PyValue => a.1 < b.1) l := by
  induction l with
  | nil => simp
  | cons a t ih =>
      rcases List.pairwise_cons.mp hle with ⟨ha, ht⟩
      rw [List.map_cons] at hnd
      rcases List.nodup_cons.mp hnd with ⟨hna, hnt⟩
      refine List.pairwise_cons.mpr ⟨?_, ih ht hnt⟩
      intro b hb
      refine lt_of_le_of_ne (ha b hb) ?_
      intro heq
      apply hna
      rw [heq]
      exact List.mem_map_of_mem Prod.fst hb

/-- Sorting is invariant under permutation of entries with distinct keys. -/
theorem sortByKey_eq_of_perm (l1 l2 : List (String × PyValue))
    (h : List.Perm l1 l2) (hnd : (l1.map Prod.fst).Nodup) :
    sortByKey l1 = sortByKey l2 := by
  haveI : IsAntisymm (String × PyValue) (fun a b => a.1 < b.1) :=
    ⟨fun a b h1 h2 => absurd h2 (lt_asymm h1)⟩
  have p : List.Perm (sortByKey l1) (sortByKey l2) :=
    (sortByKey_perm l1).trans (h.trans (sortByKey_perm l2).symm)
  have nd1 : ((sortByKey l1).map Prod.fst).Nodup :=
    (((sortByKey_perm l1).map Prod.fst).nodup_iff).mpr hnd
  have nd2 : ((sortByKey l2).map Prod.fst).Nodup :=
    (((sortByKey_perm l2).map Prod.fst).nodup_iff).mpr
      (((h.map Prod.fst).nodup_iff).mp hnd)
  exact List.eq_of_perm_of_sorted p
    (pairwise_lt_of_le_nodup _ (sortByKey_pairwise l1) nd1)
    (pairwise_lt_of_le_nodup _ (sortByKey_pairwise l2) nd2)

/-- C8: canonical serialization is deterministic and invariant to mapping
key order (for genuine dicts, i.e. duplicate-free keys); in particular
`{"z":1,"a":2}` and `{"a":2,"z":1}` canonicalize identically and hash
identically. -/
theorem canonicalize_deterministic_key_order_invariant :
    (∀ v : PyValue, canonicalize_json v = canonicalize_json v) ∧
    (∀ l1 l2 : List (String × PyValue), List.Perm l1 l2 →
      (l1.map Prod.fst).Nodup →
      canonicalize_json (PyValue.dict l1) = canonicalize_json (PyValue.dict l2)) ∧
    canonicalize_json (PyValue.dict [("z", PyValue.int 1), ("a", PyValue.int 2)]) =
      canonicalize_json (PyValue.dict [("a", PyValue.int 2), ("z", PyValue.int 1)]) ∧
    compute_canonical_hash (PyValue.dict [("z", PyValue.int 1), ("a", PyValue.int 2)]) =
      compute_canonical_hash (PyValue.dict [("a", PyValue.int 2), ("z", PyValue.int 1)]) := by
  have key : ∀ l1 l2 : List (String × PyValue), List.Perm l1 l2 →
      (l1.map Prod.fst).Nodup →
      canonicalize_json (PyValue.dict l1) = canonicalize_json (PyValue.dict l2) := by
    intro l1 l2 hp hnd
    have hs := sortByKey_eq_of_perm l1 l2 hp hnd
    have hv : canonicalize_value (PyValue.dict l1) = canonicalize_value (PyValue.dict l2) := by
      simp only [canonicalize_value, hs]
    unfold canonicalize_json
    rw [hv]
  have hperm : List.Perm [("z", PyValue.int 1), ("a", PyValue.int 2)]
      [("a", PyValue.int 2), ("z", PyValue.int 1)] :=
    List.Perm.swap ("a", PyValue.int 2) ("z", PyValue.int 1) []
  have hnd : (([("z", PyValue.int 1), ("a", PyValue.int 2)]).map Prod.fst).Nodup := by
    simp
  have hconc := key _ _ hperm hnd
  refine ⟨fun _ => rfl, key, hconc, ?_⟩
  unfold compute_canonical_hash
  rw [hconc]

/-- Witness for C8 at the concrete two-key mapping of the claim. -/
theorem canonicalize_key_order_invariant_witness :
    canonicalize_json (PyValue.dict [("z", PyValue.int 1), ("a", PyValue.int 2)]) =
      canonicalize_json (PyValue.dict [("a", PyValue.int 2), ("z", PyValue.int 1)]) :=
  canonicalize_deterministic_key_order_invariant.2.1 _ _
    (List.Perm.swap ("a", PyValue.int 2) ("z", PyValue.int 1) []) (by simp)

/-! ## Claim C2 -/

/-- The canonical text of the spec's span test vector. -/
def testDoc : String := "This is a test document."

/-- C2: span validation performs, in order and stopping at the first
failure: range check, bounds check, codepoint-slice comparison, span-drhash
comparison; and on the test vector the span `(10,14,"test")` validates while
`(0,4,"test")` fails with a text mismatch. -/
theorem span_validation_order :
    (∀ (idx : Nat) (span : Span) (ct : String),
      ((span.start < 0 ∨ span.end_ < span.start) →
        errorCode (validate_span idx span ct (sha256_hex ct)) =
          some "span_invalid_range") ∧
      (0 ≤ span.start → span.start ≤ span.end_ → (ct.length : Int) < span.end_ →
        errorCode (validate_span idx span ct (sha256_hex ct)) =
          some "span_out_of_bounds") ∧
      (0 ≤ span.start → span.start ≤ span.end_ → span.end_ ≤ (ct.length : Int) →
        String.mk ((ct.data.drop span.start.toNat).take
          (span.end_ - span.start).toNat) ≠ span.text →
        errorCode (validate_span idx span ct (sha256_hex ct)) =
          some "span_text_mismatch") ∧
      (0 ≤ span.start → span.start ≤ span.end_ → span.end_ ≤ (ct.length : Int) →
        String.mk ((ct.data.drop span.start.toNat).take
          (span.end_ - span.start).toNat) = span.text →
        span.drhash ≠ sha256_hex ct →
        errorCode (validate_span idx span ct (sha256_hex ct)) =
          some "span_drhash_mismatch") ∧
      (0 ≤ span.start → span.start ≤ span.end_ → span.end_ ≤ (ct.length : Int) →
        String.mk ((ct.data.drop span.start.toNat).take
          (span.end_ - span.start).toNat) = span.text →
        span.drhash = sha256_hex ct →
        validate_span idx span ct (sha256_hex ct) = .ok ())) ∧
    errorCode (validate_span 0 ⟨"test", 10, 14, "", none, true, sha256_hex testDoc⟩
      testDoc (sha256_hex testDoc)) = none ∧
    errorCode (validate_span 0 ⟨"test", 0, 4, "", none, true, sha256_hex testDoc⟩
      testDoc (sha256_hex testDoc)) = some "span_text_mismatch" := by
  refine ⟨?_, by decide, by decide⟩
  intro idx span ct
  refine ⟨?_, ?_, ?_, ?_, ?_⟩
  · intro h
    by_cases h0 : span.start < 0
    · simp only [validate_span]
      rw [if_pos h0]
      rfl
    · have he : span.end_ < span.start := h.resolve_left h0
      simp only [validate_span]
      rw [if_neg h0, if_pos he]
      rfl
  · intro h0 h1 h2
    simp only [validate_span]
    rw [if_neg (not_lt.mpr h0), if_neg (not_lt.mpr h1), if_pos (Or.inr h2)]
    rfl
  · intro h0 h1 h2 h3
    simp only [validate_span]
    rw [if_neg (not_lt.mpr h0), if_neg (not_lt.mpr h1),
      if_neg (by push_neg; exact ⟨le_trans h1 h2, h2⟩), if_pos h3]
    rfl
  · intro h0 h1 h2 h3 h4
    simp only [validate_span]
    rw [if_neg (not_lt.mpr h0), if_neg (not_lt.mpr h1),
      if_neg (by push_neg; exact ⟨le_trans h1 h2, h2⟩),
      if_neg (not_not_intro h3), if_pos h4]
    rfl
  · intro h0 h1 h2 h3 h4
    simp only [validate_span]
    rw [if_neg (not_lt.mpr h0), if_neg (not_lt.mpr h1),
      if_neg (by push_neg; exact ⟨le_trans h1 h2, h2⟩),
      if_neg (not_not_intro h3), if_neg (not_not_intro h4)]

/-- Witness for C2's ordered checks at concrete spans: a negative start is
reported as an invalid range, and an end past the text length as
out-of-bounds. -/
theorem span_validation_order_witness :
    errorCode (validate_span 0 ⟨"x", -1, 0, "", none, true, ""⟩ "ab"
      (sha256_hex "ab")) = some "span_invalid_range" ∧
    errorCode (validate_span 0 ⟨"x", 0, 7, "", none, true, ""⟩ "ab"
      (sha256_hex "ab")) = some "span_out_of_bounds" :=
  ⟨(span_validation_order.1 0 ⟨"x", -1, 0, "", none, true, ""⟩ "ab").1
      (Or.inl (by decide)),
   ((span_validation_order.1 0 ⟨"x", 0, 7, "", none, true, ""⟩ "ab").2.1
      (by decide) (by decide) (by decide))⟩

/-! ## Validator case analysis (shared by C1, C3, C10) -/

/-- A single span check either succeeds or fails with one of the four span
error codes. -/
theorem validate_span_code_cases (idx : Nat) (s : Span) (ct exp : String) :
    validate_span idx s ct exp = .ok () ∨
    ∃ e, validate_span idx s ct exp = .error e ∧
      (e.code = "span_invalid_range" ∨ e.code = "span_out_of_bounds" ∨
       e.code = "span_text_mismatch" ∨ e.code = "span_drhash_mismatch") := by
  simp only [validate_span]
  split_ifs
  · exact Or.inr ⟨_, rfl, Or.inl rfl⟩
  · exact Or.inr ⟨_, rfl, Or.inl rfl⟩
  · exact Or.inr ⟨_, rfl, Or.inr (Or.inl rfl)⟩
  · exact Or.inr ⟨_, rfl, Or.inr (Or.inr (Or.inl rfl))⟩
  · exact Or.inr ⟨_, rfl, Or.inr (Or.inr (Or.inr rfl))⟩
  · exact Or.inl rfl

/-- The span loop either succeeds or fails with one of the four span error
codes. -/
theorem validate_spans_code_cases (idx : Nat) (spans : List Span) (ct exp : String) :
    validate_spans idx spans ct exp = .ok () ∨
    ∃ e, validate_spans idx spans ct exp = .error e ∧
      (e.code = "span_invalid_range" ∨ e.code = "span_out_of_bounds" ∨
       e.code = "span_text_mismatch" ∨ e.code = "span_drhash_mismatch") := by
  induction spans generalizing idx with
  | nil => exact Or.inl rfl
  | cons s rest ih =>
      rcases validate_span_code_cases idx s ct exp with h | ⟨e, he, hc⟩
      · have : validate_spans idx (s :: rest) ct exp =
            validate_spans (idx + 1) rest ct exp := by
          simp [validate_spans, h, exceptBindF_ok]
        rw [this]
        exact ih (idx + 1)
      · have : validate_spans idx (s :: rest) ct exp = .error e := by
          simp [validate_spans, he, exceptBindF_error]
        exact Or.inr ⟨e, this, hc⟩

/-- Once the structural gate and the tolerance check pass, the validator is
just the drhash check followed by the span loop. -/
theorem validate_reduce (t : TampaOutput) (ct : String) (hs : structOk t)
    (htol : ¬ (|pyRound3 t.provenanceConfidence -
      pyRound3 t.provenance_breakdown.final| > PROVENANCE_TOLERANCE)) :
    validate_tampa_output t ct =
      if t.internal.drhash ≠ sha256_hex ct then
        .error (.drhash_mismatch (sha256_hex ct) t.internal.drhash)
      else validate_spans 0 t.matched_spans ct (sha256_hex ct) := by
  have hs2 := hs
  obtain ⟨-, -, -, hmb0, hmb1, hmcb0, hmcb1, hia0, hia1, hmsb0, hmsb1, hab0,
    hab1, hfin0, hfin1, hpc0, hpc1, -, -⟩ := hs2
  simp only [validate_tampa_output]
  rw [if_neg (not_not_intro hs), if_neg htol,
    if_neg (not_not_intro ⟨hpc0, hpc1⟩), if_neg (not_not_intro ⟨hmb0, hmb1⟩),
    if_neg (not_not_intro ⟨hmcb0, hmcb1⟩), if_neg (not_not_intro ⟨hia0, hia1⟩),
    if_neg (not_not_intro ⟨hmsb0, hmsb1⟩), if_neg (not_not_intro ⟨hab0, hab1⟩),
    if_neg (not_not_intro ⟨hfin0, hfin1⟩)]

/-- When the gate passes and the rounded difference exceeds the tolerance,
the validator reports exactly the provenance mismatch. -/
theorem validate_mismatch (t : TampaOutput) (ct : String) (hs : structOk t)
    (htol : |pyRound3 t.provenanceConfidence -
      pyRound3 t.provenance_breakdown.final| > PROVENANCE_TOLERANCE) :
    validate_tampa_output t ct = .error (.provenance_mismatch
      (pyRound3 t.provenanceConfidence) (pyRound3 t.provenance_breakdown.final)) := by
  simp only [validate_tampa_output]
  rw [if_neg (not_not_intro hs), if_pos htol]

/-- A record rejected by the structural gate yields exactly the Pydantic
failure. -/
theorem validate_pydantic (t : TampaOutput) (ct : String) (hs : ¬ structOk t) :
    validate_tampa_output t ct = .error .pydantic_validation_failed := by
  simp only [validate_tampa_output]
  rw [if_pos hs]

/-- A record with empty spans and sources, verdict `JA`, the drhash of the
empty canonical text, and the given `match_base`, `provenanceConfidence` and
`final` — the concrete test record family used below. -/
def mkRecord (mb pc fin : ℚ) : TampaOutput where
  verdict_hint := "JA"
  matched_spans := []
  supporting_sources := []
  checks := []
  provenance_breakdown := ⟨mb, 0, 0, 0, 0, fin⟩
  provenanceConfidence := pc
  internal := ⟨sha256_hex "", "", "canonicalize_v1"⟩
  runtime_ms := 100
  sigma_trace := []
  tampa_sigma := 0
  model_version := none
  prompt_version := none

/-- Success is exactly error code `none`. -/
theorem errorCode_eq_none {r : Except VError Unit} :
    errorCode r = none ↔ r = .ok () := by
  cases r with
  | ok u => cases u; simp [errorCode]
  | error e => simp [errorCode]

/-- A `mkRecord` with in-range fields and agreeing rounded confidences
passes the whole validator. -/
theorem mkRecord_valid (mb pc fin : ℚ) (hmb0 : 0 ≤ mb) (hmb1 : mb ≤ 1)
    (hpc0 : 0 ≤ pc) (hpc1 : pc ≤ 995 / 1000)
    (hfin0 : 0 ≤ fin) (hfin1 : fin ≤ 995 / 1000)
    (htol : ¬ (|pyRound3 pc - pyRound3 fin| > PROVENANCE_TOLERANCE)) :
    validate_tampa_output (mkRecord mb pc fin) "" = .ok () := by
  have hs : structOk (mkRecord mb pc fin) := by
    refine ⟨rfl, by simp [mkRecord], by simp [mkRecord], hmb0, hmb1,
      by norm_num [mkRecord], by norm_num [mkRecord], by norm_num [mkRecord],
      by norm_num [mkRecord], by norm_num [mkRecord], by norm_num [mkRecord],
      by norm_num [mkRecord], by norm_num [mkRecord], hfin0, hfin1, hpc0, hpc1,
      by norm_num [mkRecord], by norm_num [mkRecord]⟩
  rw [validate_reduce _ "" hs htol]
  rw [if_neg (not_not_intro
    (show (mkRecord mb pc fin).internal.drhash = sha256_hex "" from rfl))]
  rfl

/-- Rounding 0.9 to 3 decimals gives 0.9 in the exact model. -/
theorem pyRound3_nine_tenths : pyRound3 (9 / 10) = 9 / 10 := by
  norm_num [pyRound3, roundHalfEven, Rat.floor]

/-! ## Claim C3 -/

/-- C3: with the structural gate passed, the validator fails with a
provenance mismatch exactly when the confidences rounded to 3 decimals
differ by more than 0.002; `(0.900, 0.900)` and `(0.9005, 0.899)` are
accepted, `(0.500, 0.100)` is a provenance mismatch. -/
theorem provenance_tolerance_checked :
    (∀ (t : TampaOutput) (ct : String), structOk t →
      (errorCode (validate_tampa_output t ct) = some "provenance_mismatch" ↔
        |pyRound3 t.provenanceConfidence - pyRound3 t.provenance_breakdown.final| >
          PROVENANCE_TOLERANCE)) ∧
    errorCode (validate_tampa_output (mkRecord (4/5) (9/10) (9/10)) "") = none ∧
    errorCode (validate_tampa_output (mkRecord (4/5) (1/2) (1/10)) "") =
      some "provenance_mismatch" ∧
    errorCode (validate_tampa_output (mkRecord (4/5) (9005/10000) (899/1000)) "") =
      none := by
  refine ⟨?_, ?_, ?_, ?_⟩
  · intro t ct hs
    by_cases htol : |pyRound3 t.provenanceConfidence -
        pyRound3 t.provenance_breakdown.final| > PROVENANCE_TOLERANCE
    · rw [validate_mismatch t ct hs htol]
      simp [errorCode, VError.code, htol]
    · rw [validate_reduce t ct hs htol]
      refine iff_of_false ?_ htol
      by_cases hdr : t.internal.drhash ≠ sha256_hex ct
      · rw [if_pos hdr]
        simp only [errorCode, VError.code, Option.some.injEq]
        decide
      · rw [if_neg hdr]
        rcases validate_spans_code_cases 0 t.matched_spans ct (sha256_hex ct) with
          h | ⟨e, he, hc⟩
        · rw [h]; simp [errorCode]
        · rw [he]
          simp only [errorCode, Option.some.injEq]
          rcases hc with hc | hc | hc | hc <;> rw [hc] <;> decide
  · rw [errorCode_eq_none]
    refine mkRecord_valid _ _ _ (by norm_num) (by norm_num) (by norm_num)
      (by norm_num) (by norm_num) (by norm_num) ?_
    rw [pyRound3_nine_tenths, sub_self, abs_zero]
    norm_num [PROVENANCE_TOLERANCE]
  · have hs : structOk (mkRecord (4/5) (1/2) (1/10)) := by
      refine ⟨rfl, by simp [mkRecord], by simp [mkRecord], ?_, ?_, ?_, ?_, ?_, ?_,
        ?_, ?_, ?_, ?_, ?_, ?_, ?_, ?_, ?_, ?_⟩ <;> norm_num [mkRecord]
    have h1 : pyRound3 (1/2) = 1/2 := by norm_num [pyRound3, roundHalfEven, Rat.floor]
    have h2 : pyRound3 (1/10) = 1/10 := by norm_num [pyRound3, roundHalfEven, Rat.floor]
    rw [validate_mismatch _ "" hs ?_]
    · rfl
    · show |pyRound3 (1/2) - pyRound3 (1/10)| > PROVENANCE_TOLERANCE
      rw [h1, h2, show |(1:ℚ)/2 - 1/10| = 2/5 from by rw [abs_of_pos] <;> norm_num]
      norm_num [PROVENANCE_TOLERANCE]
  · rw [errorCode_eq_none]
    refine mkRecord_valid _ _ _ (by norm_num) (by norm_num) (by norm_num)
      (by norm_num) (by norm_num) (by norm_num) ?_
    have h1 : pyRound3 (9005/10000) = 9/10 := by
      norm_num [pyRound3, roundHalfEven, Rat.floor]
    have h2 : pyRound3 (899/1000) = 899/1000 := by
      norm_num [pyRound3, roundHalfEven, Rat.floor]
    rw [h1, h2, show |(9:ℚ)/10 - 899/1000| = 1/1000 from by
      rw [abs_of_pos] <;> norm_num]
    norm_num [PROVENANCE_TOLERANCE]

/-- Witness for C3's tolerance equivalence at the concrete mismatching
record `(confidence 0.500, final 0.100)`. -/
theorem provenance_tolerance_checked_witness :
    structOk (mkRecord (4/5) (1/2) (1/10)) ∧
    (errorCode (validate_tampa_output (mkRecord (4/5) (1/2) (1/10)) "") =
        some "provenance_mismatch" ↔
      |pyRound3 (mkRecord (4/5) (1/2) (1/10)).provenanceConfidence -
        pyRound3 (mkRecord (4/5) (1/2) (1/10)).provenance_breakdown.final| >
        PROVENANCE_TOLERANCE) := by
  have hs : structOk (mkRecord (4/5) (1/2) (1/10)) := by
    refine ⟨rfl, by simp [mkRecord], by simp [mkRecord], ?_, ?_, ?_, ?_, ?_, ?_,
      ?_, ?_, ?_, ?_, ?_, ?_, ?_, ?_, ?_, ?_⟩ <;> norm_num [mkRecord]
  exact ⟨hs, provenance_tolerance_checked.1 _ "" hs⟩

/-! ## Claim C10 -/

/-- C10: the explicit range-check branches of step 4 are unreachable — no
input ever yields the error code `provenance_out_of_range`, because the
Pydantic gate enforces the same bounds first and reports any violation as
`pydantic_validation_failed`. -/
theorem provenance_out_of_range_unreachable :
    (∀ (t : TampaOutput) (ct : String),
      errorCode (validate_tampa_output t ct) ≠ some "provenance_out_of_range") ∧
    (∀ (t : TampaOutput) (ct : String), ¬ structOk t →
      errorCode (validate_tampa_output t ct) = some "pydantic_validation_failed") := by
  constructor
  · intro t ct
    by_cases hs : structOk t
    · by_cases htol : |pyRound3 t.provenanceConfidence -
          pyRound3 t.provenance_breakdown.final| > PROVENANCE_TOLERANCE
      · rw [validate_mismatch t ct hs htol]
        simp only [errorCode, VError.code, ne_eq, Option.some.injEq]
        decide
      · rw [validate_reduce t ct hs htol]
        by_cases hdr : t.internal.drhash ≠ sha256_hex ct
        · rw [if_pos hdr]
          simp only [errorCode, VError.code, ne_eq, Option.some.injEq]
          decide
        · rw [if_neg hdr]
          rcases validate_spans_code_cases 0 t.matched_spans ct (sha256_hex ct) with
            h | ⟨e, he, hc⟩
          · rw [h]; simp [errorCode]
          · rw [he]
            simp only [errorCode, ne_eq, Option.some.injEq]
            rcases hc with hc | hc | hc | hc <;> rw [hc] <;> decide
    · rw [validate_pydantic t ct hs]
      simp only [errorCode, VError.code, ne_eq, Option.some.injEq]
      decide
  · intro t ct hs
    rw [validate_pydantic t ct hs]
    rfl

/-- Witness for C10 at a concrete in-range record and at a concrete record
whose `match_base` exceeds the shared bound. -/
theorem provenance_out_of_range_unreachable_witness :
    errorCode (validate_tampa_output (mkRecord (4/5) (9/10) (9/10)) "") ≠
      some "provenance_out_of_range" ∧
    errorCode (validate_tampa_output (mkRecord (1002/1000) (9/10) (9/10)) "") =
      some "pydantic_validation_failed" := by
  refine ⟨provenance_out_of_range_unreachable.1 _ "",
    provenance_out_of_range_unreachable.2 _ "" ?_⟩
  intro h
  obtain ⟨-, -, -, -, hmb1, -⟩ := h
  norm_num [mkRecord] at hmb1

/-! ## Claim C1 -/

/-- C1 counterexample: a structurally valid record with
`match_base = 0.997 > 0.995` is accepted by the validator — it is not
rejected as out-of-range, refuting the claimed `[0, 0.995]` bound for the
bonus components. -/
theorem validator_accepts_match_base_above_0995 :
    errorCode (validate_tampa_output (mkRecord (997/1000) (9/10) (9/10)) "") =
      none := by
  rw [errorCode_eq_none]
  refine mkRecord_valid _ _ _ (by norm_num) (by norm_num) (by norm_num)
    (by norm_num) (by norm_num) (by norm_num) ?_
  rw [pyRound3_nine_tenths, sub_self, abs_zero]
  norm_num [PROVENANCE_TOLERANCE]

/-- C1 (amended): the components `match_base`, `main_content_bonus`,
`multisource_bonus` and `authority_boost` of an accepted record lie in
`[0, 1]` (not `[0, 0.995]`), and a record with a component above 1
(`match_base = 1.002`) is rejected — by the structural Pydantic gate, as
`pydantic_validation_failed`, before the explicit range check can name the
field. -/
theorem provenance_components_bounded_by_one :
    (∀ (t : TampaOutput) (ct : String), validate_tampa_output t ct = .ok () →
      (0 ≤ t.provenance_breakdown.match_base ∧
        t.provenance_breakdown.match_base ≤ 1) ∧
      (0 ≤ t.provenance_breakdown.main_content_bonus ∧
        t.provenance_breakdown.main_content_bonus ≤ 1) ∧
      (0 ≤ t.provenance_breakdown.multisource_bonus ∧
        t.provenance_breakdown.multisource_bonus ≤ 1) ∧
      (0 ≤ t.provenance_breakdown.authority_boost ∧
        t.provenance_breakdown.authority_boost ≤ 1)) ∧
    errorCode (validate_tampa_output (mkRecord (1002/1000) (9/10) (9/10)) "") =
      some "pydantic_validation_failed" := by
  constructor
  · intro t ct hok
    by_cases hs : structOk t
    · obtain ⟨-, -, -, hmb0, hmb1, hmcb0, hmcb1, -, -, hmsb0, hmsb1, hab0,
        hab1, -⟩ := hs
      exact ⟨⟨hmb0, hmb1⟩, ⟨hmcb0, hmcb1⟩, ⟨hmsb0, hmsb1⟩, ⟨hab0, hab1⟩⟩
    · rw [validate_pydantic t ct hs] at hok
      simp at hok
  · rw [validate_pydantic _ "" ?_]
    · rfl
    · intro h
      obtain ⟨-, -, -, -, hmb1, -⟩ := h
      norm_num [mkRecord] at hmb1

/-- Witness for C1's amended bound at the concrete accepted record with
`match_base = 0.997`. -/
theorem provenance_components_bounded_by_one_witness :
    (0 ≤ (mkRecord (997/1000) (9/10) (9/10)).provenance_breakdown.match_base ∧
      (mkRecord (997/1000) (9/10) (9/10)).provenance_breakdown.match_base ≤ 1) ∧
    (0 ≤ (mkRecord (997/1000) (9/10) (9/10)).provenance_breakdown.main_content_bonus ∧
      (mkRecord (997/1000) (9/10) (9/10)).provenance_breakdown.main_content_bonus ≤ 1) ∧
    (0 ≤ (mkRecord (997/1000) (9/10) (9/10)).provenance_breakdown.multisource_bonus ∧
      (mkRecord (997/1000) (9/10) (9/10)).provenance_breakdown.multisource_bonus ≤ 1) ∧
    (0 ≤ (mkRecord (997/1000) (9/10) (9/10)).provenance_breakdown.authority_boost ∧
      (mkRecord (997/1000) (9/10) (9/10)).provenance_breakdown.authority_boost ≤ 1) := by
  refine provenance_components_bounded_by_one.1 _ "" ?_
  refine mkRecord_valid _ _ _ (by norm_num) (by norm_num) (by norm_num)
    (by norm_num) (by norm_num) (by norm_num) ?_
  rw [pyRound3_nine_tenths, sub_self, abs_zero]
  norm_num [PROVENANCE_TOLERANCE]

/-! ## Claims C4 and C6 -/

/-- The payload of an enumerated entry is a member of the list. -/
theorem mem_enumFrom_snd {p : Nat × PyDict} {l : List PyDict} {i : Nat}
    (h : p ∈ l.enumFrom i) : p.2 ∈ l := by
  induction l generalizing i with
  | nil => cases h
  | cons a t ih =>
      rcases List.mem_cons.mp h with h | h
      · rw [h]; exact List.mem_cons_self _ _
      · exact List.mem_cons_of_mem _ (ih h)

/-- The element at position `i` appears as `(j + i, e)` in `enumFrom j`. -/
theorem get?_mem_enumFrom (l : List PyDict) (i j : Nat) (e : PyDict)
    (h : l.get? i = some e) : (j + i, e) ∈ l.enumFrom j := by
  induction l generalizing i j with
  | nil => cases h
  | cons a t ih =>
      cases i with
      | zero =>
          cases h
          exact List.mem_cons_self _ _
      | succ i2 =>
          have := ih i2 (j + 1) (by simpa using h)
          refine List.mem_cons_of_mem _ ?_
          have harith : j + 1 + i2 = j + (i2 + 1) := by omega
      
          rw [harith] at this
          exact this

/-- Every member of the list appears in its enumeration. -/
theorem mem_enumFrom_of_mem {e : PyDict} {l : List PyDict} (h : e ∈ l) (j : Nat) :
    ∃ i, (i, e) ∈ l.enumFrom j := by
  induction l generalizing j with
  | nil => cases h
  | cons a t ih =>
      rcases List.mem_cons.mp h with h | h
      · exact ⟨j, h ▸ List.mem_cons_self _ _⟩
      · obtain ⟨i, hi⟩ := ih h (j + 1)
        exact ⟨i, List.mem_cons_of_mem _ hi⟩

/-- The two executions of the spec's consensus counter-test. -/
def ex42 : PyDict := [("outputs", PyValue.dict [("result", PyValue.int 42)])]

/-- Second execution, with a different result value. -/
def ex43 : PyDict := [("outputs", PyValue.dict [("result", PyValue.int 43)])]

/-- Canonical hash of `ex42`'s outputs. -/
theorem ex42_hash : compute_canonical_hash (getOutputs ex42) =
    .ok (sha256_hex "\x7b\"result\":42\x7d") := by
  simp +decide [ex42, getOutputs, List.lookup, compute_canonical_hash,
    canonicalize_json, canonicalize_value, canonEntries, sortByKey, insortKey,
    json_dumps, dumpEntries, jsonQuote, escapeChar, joinComma, bslash, dquote,
    exceptBind_ok, exceptBindF_ok, exceptMap_ok]

/-- Canonical hash of `ex43`'s outputs. -/
theorem ex43_hash : compute_canonical_hash (getOutputs ex43) =
    .ok (sha256_hex "\x7b\"result\":43\x7d") := by
  simp +decide [ex43, getOutputs, List.lookup, compute_canonical_hash,
    canonicalize_json, canonicalize_value, canonEntries, sortByKey, insortKey,
    json_dumps, dumpEntries, jsonQuote, escapeChar, joinComma, bslash, dquote,
    exceptBind_ok, exceptBindF_ok, exceptMap_ok]

/-- C4: with N ≥ 2 executions that all hash successfully, consensus requires
unanimity — all hashes identical gives `agreed=true` with the first output
and no discrepancies; any disagreement gives `agreed=false` with every
hashed execution recorded as an `(index, hash, output)` discrepancy; two
executions producing `{"result":42}` and `{"result":43}` disagree with
exactly 2 discrepancy entries. -/
theorem consensus_requires_unanimity :
    (∀ execs : List PyDict, 2 ≤ execs.length →
      (∀ e ∈ execs, (compute_canonical_hash (getOutputs e)).isOk = true) →
      ((∀ e1 ∈ execs, ∀ e2 ∈ execs, hashOf e1 = hashOf e2) →
        (compare_tampa_results execs).consensus_reached = true ∧
        (compare_tampa_results execs).canonical_output = execs.head?.map getOutputs ∧
        (compare_tampa_results execs).discrepancies = []) ∧
      ((∃ e1 ∈ execs, ∃ e2 ∈ execs, hashOf e1 ≠ hashOf e2) →
        (compare_tampa_results execs).consensus_reached = false ∧
        (compare_tampa_results execs).canonical_output = none ∧
        (compare_tampa_results execs).discrepancies =
          execs.enum.map (fun p =>
            Discrepancy.mismatch p.1 (hashOf p.2) (getOutputs p.2)))) ∧
    (compare_tampa_results [ex42, ex43]).consensus_reached = false ∧
    (compare_tampa_results [ex42, ex43]).discrepancies.length = 2 := by
  have main : ∀ execs : List PyDict, 2 ≤ execs.length →
      (∀ e ∈ execs, (compute_canonical_hash (getOutputs e)).isOk = true) →
      ((∀ e1 ∈ execs, ∀ e2 ∈ execs, hashOf e1 = hashOf e2) →
        (compare_tampa_results execs).consensus_reached = true ∧
        (compare_tampa_results execs).canonical_output = execs.head?.map getOutputs ∧
        (compare_tampa_results execs).discrepancies = []) ∧
      ((∃ e1 ∈ execs, ∃ e2 ∈ execs, hashOf e1 ≠ hashOf e2) →
        (compare_tampa_results execs).consensus_reached = false ∧
        (compare_tampa_results execs).canonical_output = none ∧
        (compare_tampa_results execs).discrepancies =
          execs.enum.map (fun p =>
            Discrepancy.mismatch p.1 (hashOf p.2) (getOutputs p.2))) := by
    intro execs h2 hok
    obtain ⟨a, t, rfl⟩ : ∃ a t, execs = a :: t := by
      cases execs with
      | nil => simp at h2
      | cons a t => exact ⟨a, t, rfl⟩
    obtain ⟨b, rest, rfl⟩ : ∃ b r, t = b :: r := by
      cases t with
      | nil => simp at h2
      | cons b r => exact ⟨b, r, rfl⟩
    have hcol := collectHashes_all_ok 0 (a :: b :: rest) hok
    have hred : compare_tampa_results (a :: b :: rest) =
        (if (((b :: rest).enumFrom 1).map
            (fun p => (p.1, hashOf p.2, getOutputs p.2))).all
            (fun x => x.2.1 == hashOf a) then
          ⟨true, some (getOutputs a), []⟩
        else
          ⟨false, none,
            (((a :: b :: rest).enumFrom 0).map
              (fun p => (p.1, hashOf p.2, getOutputs p.2))).map
              (fun x => Discrepancy.mismatch x.1 x.2.1 x.2.2)⟩) := by
      simp only [compare_tampa_results, hcol, List.enumFrom, List.map_cons,
        List.nil_append]
    constructor
    · intro hall
      have hcond : ((((b :: rest).enumFrom 1).map
          (fun p => (p.1, hashOf p.2, getOutputs p.2))).all
          (fun x => x.2.1 == hashOf a)) = true := by
        rw [List.all_eq_true]
        intro x hx
        rcases List.mem_map.mp hx with ⟨p, hp, rfl⟩
        simp only [beq_iff_eq]
        exact hall p.2 (List.mem_cons_of_mem a (mem_enumFrom_snd hp)) a
          (List.mem_cons_self _ _)
      rw [hred, if_pos hcond]
      exact ⟨rfl, rfl, rfl⟩
    · intro hne
      obtain ⟨e1, he1, e2, he2, hne12⟩ := hne
      have hcond : ((((b :: rest).enumFrom 1).map
          (fun p => (p.1, hashOf p.2, getOutputs p.2))).all
          (fun x => x.2.1 == hashOf a)) = false := by
        rcases hc : ((((b :: rest).enumFrom 1).map
            (fun p => (p.1, hashOf p.2, getOutputs p.2))).all
            (fun x => x.2.1 == hashOf a)) with _ | _
        · exact hc
        · exfalso
          have hAll : ∀ e ∈ a :: b :: rest, hashOf e = hashOf a := by
            intro e he
            rcases List.mem_cons.mp he with he | he
            · rw [he]
            · obtain ⟨i, hi⟩ := mem_enumFrom_of_mem he 1
              have hx := List.all_eq_true.mp hc _
                (List.mem_map_of_mem (fun p => (p.1, hashOf p.2, getOutputs p.2)) hi)
              simpa [beq_iff_eq] using hx
          exact hne12 ((hAll e1 he1).trans (hAll e2 he2).symm)
      rw [hred, if_neg (by rw [hcond]; exact Bool.false_ne_true)]
      refine ⟨rfl, rfl, ?_⟩
      simp only [List.map_map, List.enum]
      rfl
  refine ⟨main, ?_, ?_⟩
  all_goals {
    have hd : hashOf ex42 ≠ hashOf ex43 := by
      simp only [hashOf, ex42_hash, ex43_hash, Except.toOption, Option.getD_some]
      decide
    have hok : ∀ e ∈ [ex42, ex43],
        (compute_canonical_hash (getOutputs e)).isOk = true := by
      intro e he
      rcases List.mem_cons.mp he with he | he
      · rw [he, ex42_hash]; rfl
      · rcases List.mem_cons.mp he with he | he
        · rw [he, ex43_hash]; rfl
        · cases he
    have hii := (main [ex42, ex43] (by simp) hok).2
      ⟨ex42, by simp, ex43, by simp, hd⟩
    first
      | exact hii.1
      | (rw [hii.2.2]; rfl)
  }

/-- Witness for C4's unanimity analysis at the two concrete executions of
the claim. -/
theorem consensus_requires_unanimity_witness :
    (compare_tampa_results [ex42, ex43]).consensus_reached = false ∧
    (compare_tampa_results [ex42, ex43]).canonical_output = none := by
  have hd : hashOf ex42 ≠ hashOf ex43 := by
    simp only [hashOf, ex42_hash, ex43_hash, Except.toOption, Option.getD_some]
    decide
  have hok : ∀ e ∈ [ex42, ex43],
      (compute_canonical_hash (getOutputs e)).isOk = true := by
    intro e he
    rcases List.mem_cons.mp he with he | he
    · rw [he, ex42_hash]; rfl
    · rcases List.mem_cons.mp he with he | he
      · rw [he, ex43_hash]; rfl
      · cases he
  have hii := (consensus_requires_unanimity.1 [ex42, ex43] (by simp) hok).2
    ⟨ex42, by simp, ex43, by simp, hd⟩
  exact ⟨hii.1, hii.2.1⟩

/-- An execution whose outputs cannot be canonicalized (a Python `set`). -/
def exBad : PyDict := [("outputs", PyValue.other "set")]

/-- Hashing `exBad`'s outputs raises the unsupported-type error. -/
theorem exBad_hash : compute_canonical_hash (getOutputs exBad) =
    .error "Unsupported type for canonicalization: set" := by
  simp [exBad, getOutputs, List.lookup, compute_canonical_hash, canonicalize_json,
    canonicalize_value, exceptBindF_error, exceptMap_error]

/-- C6: executions whose outputs fail to hash are recorded as error
discrepancies and excluded; consensus is reached exactly when the
successfully hashed set is non-empty and unanimous, with the first
successfully hashed output as the canonical one. -/
theorem partial_hash_failure_consensus :
    (∀ execs : List PyDict, 2 ≤ execs.length →
      (∀ (i : Nat) (e : PyDict) (msg : String), execs.get? i = some e →
        compute_canonical_hash (getOutputs e) = .error msg →
        Discrepancy.failed i ("Failed to canonicalize: " ++ msg) ∈
          (compare_tampa_results execs).discrepancies) ∧
      ((compare_tampa_results execs).consensus_reached = true ↔
        (okHashes execs ≠ [] ∧
         ∀ x ∈ okHashes execs, ∀ y ∈ okHashes execs, x.2.1 = y.2.1)) ∧
      ((compare_tampa_results execs).consensus_reached = true →
        (compare_tampa_results execs).canonical_output =
          (okHashes execs).head?.map (fun x => x.2.2))) ∧
    (compare_tampa_results [exBad, ex42, ex42]).consensus_reached = true ∧
    (compare_tampa_results [exBad, ex42, ex42]).canonical_output =
      some (PyValue.dict [("result", PyValue.int 42)]) ∧
    (compare_tampa_results [exBad, ex42, ex42]).discrepancies =
      [Discrepancy.failed 0
        "Failed to canonicalize: Unsupported type for canonicalization: set"] := by
  have hok42 : compute_canonical_hash (getOutputs ex42) =
      .ok (sha256_hex "\x7b\"result\":42\x7d") := ex42_hash
  have hcol : collectHashes 0 [exBad, ex42, ex42] =
      ([(1, sha256_hex "\x7b\"result\":42\x7d", getOutputs ex42),
        (2, sha256_hex "\x7b\"result\":42\x7d", getOutputs ex42)],
       [Discrepancy.failed 0
         "Failed to canonicalize: Unsupported type for canonicalization: set"]) := by
    simp [collectHashes, exBad_hash, hok42]
  have hconc : compare_tampa_results [exBad, ex42, ex42] =
      ⟨true, some (getOutputs ex42),
        [Discrepancy.failed 0
          "Failed to canonicalize: Unsupported type for canonicalization: set"]⟩ := by
    simp only [compare_tampa_results, hcol, List.all_cons, List.all_nil,
      beq_self_eq_true, Bool.and_true, if_true]
  refine ⟨?_, by rw [hconc], by rw [hconc]; rfl, by rw [hconc]⟩
  intro execs h2
  obtain ⟨a, t, rfl⟩ : ∃ a t, execs = a :: t := by
    cases execs with
    | nil => simp at h2
    | cons a t => exact ⟨a, t, rfl⟩
  obtain ⟨b, rest, rfl⟩ : ∃ b r, t = b :: r := by
    cases t with
    | nil => simp at h2
    | cons b r => exact ⟨b, r, rfl⟩
  have hfst : (collectHashes 0 (a :: b :: rest)).1 = okHashes (a :: b :: rest) := by
    rw [collectHashes_fst]; rfl
  have hmem2 : ∀ (i : Nat) (e : PyDict) (msg : String),
      (a :: b :: rest).get? i = some e →
      compute_canonical_hash (getOutputs e) = .error msg →
      Discrepancy.failed i ("Failed to canonicalize: " ++ msg) ∈
        (collectHashes 0 (a :: b :: rest)).2 := by
    intro i e msg hget herr
    rw [collectHashes_snd]
    refine List.mem_filterMap.mpr ⟨(i, e), ?_, ?_⟩
    · have := get?_mem_enumFrom (a :: b :: rest) i 0 e hget
      simpa using this
    · simp [herr]
  rcases hh : (collectHashes 0 (a :: b :: rest)).1 with _ | ⟨⟨i0, h0, o0⟩, tl⟩
  · have hred : compare_tampa_results (a :: b :: rest) =
        ⟨false, none, (collectHashes 0 (a :: b :: rest)).2⟩ := by
      simp only [compare_tampa_results, hh]
    have hok : okHashes (a :: b :: rest) = [] := hfst ▸ hh
    refine ⟨fun i e msg hget herr => by rw [hred]; exact hmem2 i e msg hget herr,
      ?_, ?_⟩
    · rw [hred, hok]
      simp
    · intro hcr
      rw [hred] at hcr
      simp at hcr
  · have hok : okHashes (a :: b :: rest) = (i0, h0, o0) :: tl := hfst ▸ hh
    rcases hall : tl.all (fun x => x.2.1 == h0) with _ | _
    · have hred : compare_tampa_results (a :: b :: rest) =
          ⟨false, none, (collectHashes 0 (a :: b :: rest)).2 ++
            (((i0, h0, o0) :: tl).map
              (fun x => Discrepancy.mismatch x.1 x.2.1 x.2.2))⟩ := by
        simp only [compare_tampa_results, hh, hall, Bool.false_eq_true, if_false]
      refine ⟨fun i e msg hget herr => by
          rw [hred]; exact List.mem_append_left _ (hmem2 i e msg hget herr),
        ?_, ?_⟩
      · rw [hred, hok]
        constructor
        · intro hcr; simp at hcr
        · rintro ⟨-, hpair⟩
          exfalso
          have htrue : tl.all (fun x => x.2.1 == h0) = true :=
            List.all_eq_true.mpr (fun y hy => beq_iff_eq.mpr
              (hpair y (List.mem_cons_of_mem _ hy) (i0, h0, o0)
                (List.mem_cons_self _ _)))
          rw [hall] at htrue
          exact absurd htrue (by simp)
      · intro hcr
        rw [hred] at hcr
        simp at hcr
    · have hred : compare_tampa_results (a :: b :: rest) =
          ⟨true, some o0, (collectHashes 0 (a :: b :: rest)).2⟩ := by
        simp only [compare_tampa_results, hh, hall, if_true]
      refine ⟨fun i e msg hget herr => by
          rw [hred]; exact hmem2 i e msg hget herr, ?_, ?_⟩
      · rw [hred, hok]
        refine iff_of_true rfl ⟨by simp, ?_⟩
        have heq : ∀ y ∈ (i0, h0, o0) :: tl, y.2.1 = h0 := by
          intro y hy
          rcases List.mem_cons.mp hy with hy | hy
          · rw [hy]
          · exact beq_iff_eq.mp (List.all_eq_true.mp hall y hy)
        intro x hx y hy
        rw [heq x hx, heq y hy]
      · intro _
        rw [hred, hok]
        rfl

/-- Witness for C6's error recording at the concrete failing execution. -/
theorem partial_hash_failure_consensus_witness :
    Discrepancy.failed 0 ("Failed to canonicalize: " ++
      "Unsupported type for canonicalization: set") ∈
      (compare_tampa_results [exBad, ex42, ex42]).discrepancies :=
  (partial_hash_failure_consensus.1 [exBad, ex42, ex42] (by simp)).1 0 exBad
    "Unsupported type for canonicalization: set" rfl exBad_hash
